import Mathlib

/- Verification of the connection-handling core of
   `src/gui/webdisplay/src/TWebWindow.cxx` (web-window protocol engine):
   wire codec, credit flow control, bounded outbound queues, and the
   handshake / channel-multiplexing state machine.  Frames and payloads are
   modelled as `List Char` (the bytes of the C buffers), machine integers as
   `Nat`/`Int` with explicit bounds where the C semantics need them. -/

namespace WebWindow

/-! ### Definitions: wire codec, data model, protocol operations -/

/-! ### Wire codec
    Decoder: `TWebWindow::ProcessWS`, lines 218-248.
    Encoder: `TWebWindow::SendDataViaConnection`, lines 317-337. -/
/-- C `isspace` in the default locale (the characters skipped by `std::strtoul`):
space, `\t`, `\n`, vertical tab, form feed, `\r`. -/
def cIsSpace (ch : Char) : Bool :=
  ch.toNat = 32 || ch.toNat = 9 || ch.toNat = 10 || ch.toNat = 11 ||
    ch.toNat = 12 || ch.toNat = 13

/-- Decimal digit test: `'0' ≤ ch ≤ '9'` (codes 48-57). -/
def isDigitC (ch : Char) : Bool :=
  48 ≤ ch.toNat && ch.toNat ≤ 57

/-- Numeric value accumulated by `strtoul` over a big-endian decimal digit
string. -/
def digitsVal (l : List Char) : Nat :=
  l.foldl (fun a ch => 10 * a + (ch.toNat - 48)) 0

/-- Value of `ULONG_MAX`: `unsigned long` is 64 bits on the target platform, and
`std::strtoul` saturates at this value on overflow. -/
def ulongMax : Nat := 2 ^ 64 - 1

/-- The NUL character: the C post-data buffer is zero-terminated, so reading
one character past the parsed data yields NUL (never the `':'` delimiter). -/
def nulChar : Char := Char.ofNat 0

/-- Read of `*(buf + pos)` on the NUL-terminated buffer. -/
def charAt (buf : List Char) (pos : Nat) : Char :=
  (buf.drop pos).headD nulChar

/-- Model of `std::strtoul(buf + pos, &str_end, 10)`: returns the converted
value and the offset of `str_end` within `buf`.  Leading white space and an
optional single sign are consumed; if no digits follow, no conversion is
performed and the end offset is `pos` itself (strtoul stores the original
pointer in `str_end`).  Out-of-range values saturate at `ULONG_MAX`; a minus
sign negates modulo 2^64 (C unsigned wraparound). -/
def strtoulFrom (buf : List Char) (pos : Nat) : Nat × Nat :=
  let s := buf.drop pos
  let ws := (s.takeWhile cIsSpace).length
  let s1 := s.drop ws
  let signLen : Nat := if s1.headD nulChar = '-' || s1.headD nulChar = '+' then 1 else 0
  let neg : Bool := s1.headD nulChar = '-'
  let ds := (s1.drop signLen).takeWhile isDigitC
  if ds.isEmpty then (0, pos)
  else
    let v0 := digitsVal ds
    let v := if ulongMax < v0 then ulongMax
             else if neg then (2 ^ 64 - v0) % 2 ^ 64 else v0
    (v, pos + ws + signLen + ds.length)

/-- Frame decoder of `TWebWindow::ProcessWS` (lines 218-248): three unsigned
integers each followed by `':'`, then the payload.  `len` is
`arg.GetPostDataLength()`; parsing reads the NUL-terminated buffer itself, and
the computed payload offset is checked against `len` (`corrupted buffer`).
On success returns `(ackn_oper, can_send, nchannel, cdata)`. -/
def decodeFrame (buf : List Char) (len : Nat) :
    Except String (Nat × Nat × Nat × List Char) :=
  let r1 := strtoulFrom buf 0
  if charAt buf r1.2 ≠ ':' then .error "missing number of acknowledged operations"
  else
    let r2 := strtoulFrom buf (r1.2 + 1)
    if charAt buf r2.2 ≠ ':' then .error "missing can_send counter"
    else
      let r3 := strtoulFrom buf (r2.2 + 1)
      if charAt buf r3.2 ≠ ':' then .error "missing channel number"
      else
        let processedLen := r3.2 + 1
        if len < processedLen then .error "corrupted buffer"
        else .ok (r1.1, r2.1, r3.1, (buf.drop processedLen).take (len - processedLen))

/-- Digit-extraction loop for `natChars`, structural on a fuel argument so
that the kernel can evaluate it (`fuel ≥ n` suffices). -/
def natCharsAux : Nat → Nat → List Char
  | 0, _ => []
  | fuel + 1, n =>
    if n = 0 then []
    else natCharsAux fuel (n / 10) ++ [Char.ofNat (48 + n % 10)]

/-- Decimal rendering of a `Nat` as produced by `std::to_string` on an
unsigned value: canonical digits, no sign, `"0"` for zero. -/
def natChars (n : Nat) : List Char :=
  if n = 0 then ['0'] else natCharsAux n n

/-- Decimal rendering of an `int` by `std::to_string`. -/
def intChars (i : Int) : List Char :=
  if i < 0 then '-' :: natChars i.natAbs else natChars i.toNat

/-- The textual frame built by `TWebWindow::SendDataViaConnection` (lines
317-329): `<recvCount>:<sendCredits>:<chid>:` followed by the payload (or the
binary marker).  The two counters are captured before being reset/decremented. -/
def wireFrame (recv : Nat) (credits : Int) (chid : Int) (tail : List Char) : List Char :=
  natChars recv ++ ':' :: intChars credits ++ ':' :: intChars chid ++ ':' :: tail

/-- Canonical encoding of a frame from its three accounting fields and its
payload: the encoder side of the wire codec with nonnegative accounting
numbers (how both peers render frames). -/
def encodeFrame (a c ch : Nat) (p : List Char) : List Char :=
  wireFrame a (Int.ofNat c) (Int.ofNat ch) p

/-! ### Data model
    `WebConn` / `QueueItem` are the per-connection state of TWebWindow.cxx;
    field initial values follow the spec (§3, §4.2) since the header with the
    initializers is not part of the sampled sources.  The `ghost*` fields are
    proof instrumentation only: the operations below never read them, they
    just record the acknowledgment total and the per-connection
    submission/transmission order for the stated invariants. -/
/-- One queued outbound item: `(channel id, is-text flag, payload bytes)`.
`ghostId` is instrumentation: the submission serial number of the item. -/
structure QueueItem where
  fChID : Int
  fText : Bool
  fData : List Char
  ghostId : Nat
deriving Repr, DecidableEq

/-- One active client connection (struct `WebConn`).  Modelled from the spec:
initial values of the fields (`Pending` stage `0`, zero counters, configured
initial send-credit allowance, unset process handle) come from §3/§4.2 of the
spec because the class header carrying the initializers is not under `src/`. -/
structure WebConn where
  fConnId : Nat
  fWSId : Nat
  fProcId : List Char
  fReady : Nat
  fRecvCount : Nat
  fSendCredits : Int
  fClientCredits : Int
  fQueue : List QueueItem
  ghostAckSum : Nat
  ghostSubmitted : List Nat
  ghostSent : List Nat
deriving Repr, DecidableEq

/-- A frame handed to the transport (`SendCharStarWS` / `SendHeaderWS`). -/
inductive OutMsg where
  | text (wsId : Nat) (frame : List Char)
  | binary (wsId : Nat) (header : List Char) (payload : List Char)
deriving Repr, DecidableEq

/-- Observable effects of one operation: frames handed to the transport (in
order), default data-callback invocations, channel-callback invocations,
halted client process handles, and logged error messages. -/
structure Effects where
  sent : List OutMsg := []
  callbacks : List (Nat × List Char) := []
  chCalls : List (Nat × List Char) := []
  halted : List (List Char) := []
  errors : List String := []
deriving Repr, DecidableEq

/-- No effects. -/
def Effects.nil : Effects := {}

/-- Chronological concatenation of effects. -/
def Effects.app (e₁ e₂ : Effects) : Effects :=
  { sent := e₁.sent ++ e₂.sent
    callbacks := e₁.callbacks ++ e₂.callbacks
    chCalls := e₁.chCalls ++ e₂.chCalls
    halted := e₁.halted ++ e₂.halted
    errors := e₁.errors ++ e₂.errors }

/-- The window state (`TWebWindow`).  `fNativeOnly` models the result of
`IsNativeOnlyConn()`, `fHasWSHandler` / `fHasDataCallback` the truthiness of
`fWSHandler` / `fDataCallback`, and `fInitCredits` is the configured initial
send-credit allowance of a new connection (spec §4.2; the header holding the
initializer is not under `src/`).  `ghostNextId` is instrumentation: the next
submission serial number. -/
structure Window where
  fConn : List WebConn
  fConnCnt : Nat
  fConnLimit : Nat
  fMaxQueueLength : Nat
  fPanelName : List Char
  fKeys : List (List Char × List Char)
  fNativeOnly : Bool
  fInitCredits : Nat
  fHasWSHandler : Bool
  fHasDataCallback : Bool
  ghostNextId : Nat
deriving Repr, DecidableEq

/-- A fresh window with no connections (constructor state plus configuration). -/
def initWindow (connLimit maxQueue : Nat) (panel : List Char)
    (keys : List (List Char × List Char)) (native : Bool) (credits : Nat) : Window :=
  { fConn := [], fConnCnt := 0, fConnLimit := connLimit, fMaxQueueLength := maxQueue
    fPanelName := panel, fKeys := keys, fNativeOnly := native, fInitCredits := credits
    fHasWSHandler := true, fHasDataCallback := true, ghostNextId := 0 }

/-- A freshly created connection (`fConn.emplace_back(++fConnCnt, wsId)`):
`Pending` stage, zero counters, the configured initial credit allowance. -/
def newConn (connId wsId credits : Nat) : WebConn :=
  { fConnId := connId, fWSId := wsId, fProcId := [], fReady := 0, fRecvCount := 0
    fSendCredits := (credits : Int), fClientCredits := 0, fQueue := []
    ghostAckSum := 0, ghostSubmitted := [], ghostSent := [] }

/-- First connection whose wire-session id matches (the scan at the top of
`ProcessWS`, lines 154-162). -/
def findConn : List WebConn → Nat → Option WebConn
  | [], _ => none
  | c :: rest, i => if c.fWSId = i then some c else findConn rest i

/-- Update the first connection with the given wire-session id (mutation
through the `conn` pointer in `ProcessWS`). -/
def updateFirst : List WebConn → Nat → (WebConn → WebConn) → List WebConn
  | [], _, _ => []
  | c :: rest, i, f => if c.fWSId = i then f c :: rest else c :: updateFirst rest i f

/-- Remove the first connection with the given wire-session id
(`fConn.erase(iter)`). -/
def eraseFirst : List WebConn → Nat → List WebConn
  | [], _ => []
  | c :: rest, i => if c.fWSId = i then rest else c :: eraseFirst rest i

/-- Key-table lookup (`HasKey` / `fKeys[key]`). -/
def lookupKey (ks : List (List Char × List Char)) (k : List Char) : Option (List Char) :=
  match ks with
  | [] => none
  | p :: rest => if p.1 = k then some p.2 else lookupKey rest k

/-- Key-table removal (`fKeys.erase(key)`; map keys are unique). -/
def eraseKey (ks : List (List Char × List Char)) (k : List Char) :
    List (List Char × List Char) :=
  ks.filter (fun p => p.1 ≠ k)

/-- Cast `(int)can_send`: conversion of the 64-bit unsigned value to a 32-bit
signed `int` (two's-complement wraparound). -/
def i32ofULong (n : Nat) : Int :=
  let m : Nat := n % 2 ^ 32
  if m < 2 ^ 31 then (m : Int) else (m : Int) - 2 ^ 32

/-! ### Credit flow controller and outbound queue
    `SendDataViaConnection` (lines 305-338), `CheckDataToSend` (lines
    344-369), `SubmitData` (lines 445-466). -/
/-- Model of `TWebWindow::SendDataViaConnection`: returns the updated connection, the
frame handed to the transport (if any), and logged errors.  The frame prefix
captures `fRecvCount` and `fSendCredits` before they are reset/decremented;
nothing is sent without strictly positive send credits. -/
def sendDataViaConnection (hasHandler : Bool) (c : WebConn) (txt : Bool)
    (data : List Char) (chid : Int) : WebConn × Option OutMsg × List String :=
  if c.fWSId = 0 ∨ hasHandler = false then
    (c, none, ["try to send text data when connection not established"])
  else if c.fSendCredits ≤ 0 then
    (c, none, ["No credits to send text data via connection"])
  else
    let c' := { c with fRecvCount := 0, fSendCredits := c.fSendCredits - 1 }
    if txt then
      (c', some (.text c.fWSId (wireFrame c.fRecvCount c.fSendCredits chid data)), [])
    else
      (c', some (.binary c.fWSId
        (wireFrame c.fRecvCount c.fSendCredits chid (String.toList "$$binary$$")) data), [])

/-- One connection's turn inside the drain loop of `CheckDataToSend`
(lines 351-366): pop-and-send the front queue item, or emit a keep-alive when
the client is low on credits; returns `(conn, effects, made-progress)`. -/
def sweepConn (hasHandler : Bool) (c : WebConn) : WebConn × Effects × Bool :=
  if c.fSendCredits ≤ 0 then (c, Effects.nil, false)
  else
    match c.fQueue with
    | item :: rest =>
      let r := sendDataViaConnection hasHandler c item.fText item.fData item.fChID
      let c' := { r.1 with
        fQueue := rest
        ghostSent := if r.2.1.isSome then r.1.ghostSent ++ [item.ghostId]
                     else r.1.ghostSent }
      (c', { sent := r.2.1.toList, errors := r.2.2 }, true)
    | [] =>
      if c.fClientCredits < 3 ∧ 1 < c.fRecvCount then
        let r := sendDataViaConnection hasHandler c true (String.toList "KEEPALIVE") 0
        (r.1, { sent := r.2.1.toList, errors := r.2.2 }, true)
      else (c, Effects.nil, false)

/-- One full sweep of the drain loop over all connections. -/
def sweepList (hasHandler : Bool) : List WebConn → List WebConn × Effects × Bool
  | [] => ([], Effects.nil, false)
  | c :: rest =>
    let r := sweepConn hasHandler c
    let r2 := sweepList hasHandler rest
    (r.1 :: r2.1, (r.2.1.app r2.2.1), (r.2.2 || r2.2.2))

/-- The `do … while (isany)` drain loop, iterated on explicit fuel. -/
def checkLoop (hasHandler : Bool) : Nat → List WebConn → List WebConn × Effects
  | 0, l => (l, Effects.nil)
  | fuel + 1, l =>
    let r := sweepList hasHandler l
    if r.2.2 then
      let r2 := checkLoop hasHandler fuel r.1
      (r2.1, r.2.1.app r2.2)
    else (r.1, r.2.1)

/-- Fuel bound for the drain loop: each productive sweep either pops a queue
item or zeroes a receive counter that was above one, so this many sweeps
suffice (the C loop would only iterate longer in the degenerate
no-handler/no-socket situation where it never terminates at all). -/
def drainFuel (l : List WebConn) : Nat :=
  (l.map (fun c => c.fQueue.length)).sum + l.length + 1

/-- Model of `TWebWindow::CheckDataToSend` (main entry, `only_once = false`). -/
def checkDataToSend (w : Window) : Window × Effects :=
  let r := checkLoop w.fHasWSHandler (drainFuel w.fConn) w.fConn
  ({ w with fConn := r.1 }, r.2)

/-- Loop body of `TWebWindow::SubmitData` (lines 449-463) for one connection.
`cnt` is the decrementing counter deciding copy-vs-move, `dataVar` the
caller's payload variable: an enqueue stores its current contents, and the
`--cnt == 0` enqueue moves it (leaving it empty, the moved-from state).
Returns `(conn, cnt, dataVar, effects)`. -/
def submitOne (hasHandler : Bool) (connid : Nat) (txt : Bool) (chid : Int)
    (maxQueue : Nat) (gid : Nat) (c : WebConn) (cnt : Int) (dataVar : List Char) :
    WebConn × Int × List Char × Effects :=
  if connid ≠ 0 ∧ connid ≠ c.fConnId then (c, cnt, dataVar, Effects.nil)
  else if c.fQueue = [] ∧ 0 < c.fSendCredits then
    let r := sendDataViaConnection hasHandler c txt dataVar chid
    let c' := { r.1 with
      ghostSubmitted := r.1.ghostSubmitted ++ [gid]
      ghostSent := if r.2.1.isSome then r.1.ghostSent ++ [gid] else r.1.ghostSent }
    (c', cnt, dataVar, { sent := r.2.1.toList, errors := r.2.2 })
  else if c.fQueue.length < maxQueue then
    if cnt - 1 ≠ 0 then
      ({ c with fQueue := c.fQueue ++ [⟨chid, txt, dataVar, gid⟩]
                ghostSubmitted := c.ghostSubmitted ++ [gid] },
        cnt - 1, dataVar, Effects.nil)
    else
      ({ c with fQueue := c.fQueue ++ [⟨chid, txt, dataVar, gid⟩]
                ghostSubmitted := c.ghostSubmitted ++ [gid] },
        cnt - 1, [], Effects.nil)
  else
    ({ c with ghostSubmitted := c.ghostSubmitted ++ [gid] }, cnt, dataVar,
      { errors := ["Maximum queue length achieved"] })

/-- The `SubmitData` loop over all connections, threading `cnt` and the
payload variable. -/
def submitLoop (hasHandler : Bool) (connid : Nat) (txt : Bool) (chid : Int)
    (maxQueue : Nat) (gid : Nat) :
    List WebConn → Int → List Char → List WebConn × Int × List Char × Effects
  | [], cnt, dataVar => ([], cnt, dataVar, Effects.nil)
  | c :: rest, cnt, dataVar =>
    let r := submitOne hasHandler connid txt chid maxQueue gid c cnt dataVar
    let r2 := submitLoop hasHandler connid txt chid maxQueue gid rest r.2.1 r.2.2.1
    (r.1 :: r2.1, r2.2.1, r2.2.2.1, r.2.2.2.app r2.2.2.2)

/-- Model of `TWebWindow::SubmitData`: per-connection direct send / bounded enqueue /
reported drop, followed by the drain pass. -/
def submitData (w : Window) (connid : Nat) (txt : Bool) (data : List Char)
    (chid : Int) : Window × Effects :=
  let cnt : Int := if connid ≠ 0 then 1 else (w.fConn.length : Int)
  let r := submitLoop w.fHasWSHandler connid txt chid w.fMaxQueueLength
    w.ghostNextId w.fConn cnt data
  let w' := { w with fConn := r.1, ghostNextId := w.ghostNextId + 1 }
  let r2 := checkDataToSend w'
  (r2.1, r.2.2.2.app r2.2)

/-- Model of `TWebWindow::Send`: text data on channel 1. -/
def sendText (w : Window) (connid : Nat) (data : List Char) : Window × Effects :=
  submitData w connid true data 1

/-! ### Handshake state machine and channel multiplexer
    `TWebWindow::ProcessWS`, lines 148-299. -/
/-- An inbound websocket event (`THttpCallArg`): method, wire-session id, and
for `WS_DATA` the post-data buffer together with its declared length. -/
inductive WSEvent where
  | connect (wsId : Nat)
  | ready (wsId : Nat)
  | close (wsId : Nat)
  | data (wsId : Nat) (buf : List Char) (len : Nat)
  | other (wsId : Nat)
deriving Repr, DecidableEq

/-- Wire-session id of an event (`arg.GetWSId()`). -/
def WSEvent.id : WSEvent → Nat
  | .connect i => i
  | .ready i => i
  | .close i => i
  | .data i _ _ => i
  | .other i => i

/-- The literal payloads of the system-channel protocol. -/
def readyChars : List Char := String.toList "READY="

/-- Literal `"SHOWPANEL:"` directive text. -/
def showPanelChars : List Char := String.toList "SHOWPANEL:"

/-- Literal `"PANEL_READY"` client acknowledgment. -/
def panelReadyChars : List Char := String.toList "PANEL_READY"

/-- Literal `"CONN_READY"` notification constant. -/
def connReadyChars : List Char := String.toList "CONN_READY"

/-- Literal `"CONN_CLOSED"` notification constant. -/
def connClosedChars : List Char := String.toList "CONN_CLOSED"

/-- Effects consisting of one logged error. -/
def errEff (msg : String) : Effects := { errors := [msg] }

/-- Effects consisting of one default data-callback invocation. -/
def cbEff (connId : Nat) (payload : List Char) : Effects :=
  { callbacks := [(connId, payload)] }

/-- Effects consisting of one channel-callback invocation. -/
def chEff (connId : Nat) (payload : List Char) : Effects :=
  { chCalls := [(connId, payload)] }

/-- Set the readiness stage of the connection the `conn` pointer refers to
(`conn->fReady = …`). -/
def setReady (w : Window) (wsId : Nat) (v : Nat) : Window :=
  { w with fConn := updateFirst w.fConn wsId (fun c => { c with fReady := v }) }

/-- Per-frame credit accounting (lines 250-252): add the acknowledged
operations to the send credits, count the received frame, record the client's
advertised credits; `ghostAckSum` mirrors the acknowledgment total. -/
def creditUpdate (ackn canSend : Nat) (c : WebConn) : WebConn :=
  { c with fSendCredits := c.fSendCredits + (ackn : Int)
           fRecvCount := c.fRecvCount + 1
           fClientCredits := i32ofULong canSend
           ghostAckSum := c.ghostAckSum + ackn }

/-- Key consumption during the handshake (lines 266-270): when the key is in
the table, attach the resolved process id to the connection and remove the
key; otherwise leave everything unchanged. -/
def consumeKey (w : Window) (wsId : Nat) (key : List Char) : Window :=
  match lookupKey w.fKeys key with
  | some pid =>
    { w with
      fConn := updateFirst w.fConn wsId (fun c => { c with fProcId := pid }),
      fKeys := eraseKey w.fKeys key }
  | none => w

/-- The post-decode part of the `WS_DATA` branch (lines 250-298) for the
connection the `conn` pointer refers to (`c0` is its pre-event value): credit
accounting, then the system-channel handshake or payload dispatch, then
`CheckDataToSend`. -/
def processDecoded (w : Window) (wsId : Nat) (c0 : WebConn)
    (ackn canSend nchannel : Nat) (cdata : List Char) : Bool × Window × Effects :=
  let w1 := { w with fConn := updateFirst w.fConn wsId (creditUpdate ackn canSend) }
  if nchannel = 0 then
    if cdata.take 6 = readyChars ∧ c0.fReady = 0 then
      let key := cdata.drop 6
      if (lookupKey w1.fKeys key).isNone ∧ w1.fNativeOnly then
        (false, { w1 with fConn := eraseFirst w1.fConn wsId }, Effects.nil)
      else
        let w2 := consumeKey w1 wsId key
        if w2.fPanelName ≠ [] then
          let r := submitData w2 c0.fConnId true (showPanelChars ++ w2.fPanelName) 1
          let r2 := checkDataToSend (setReady r.1 wsId 5)
          (true, r2.1, (r.2.app r2.2))
        else
          let r2 := checkDataToSend (setReady w2 wsId 10)
          (true, r2.1, ((cbEff c0.fConnId connReadyChars).app r2.2))
    else
      let r2 := checkDataToSend w1
      (true, r2.1, r2.2)
  else if w1.fPanelName ≠ [] ∧ c0.fReady < 10 then
    if cdata = panelReadyChars then
      let r2 := checkDataToSend (setReady w1 wsId 10)
      (true, r2.1, ((cbEff c0.fConnId connReadyChars).app r2.2))
    else
      let w3 := { w1 with fConn := eraseFirst w1.fConn wsId }
      let r2 := checkDataToSend w3
      (true, r2.1, ((cbEff c0.fConnId connClosedChars).app r2.2))
  else if nchannel = 1 then
    let r2 := checkDataToSend w1
    (true, r2.1, ((cbEff c0.fConnId cdata).app r2.2))
  else
    let r2 := checkDataToSend w1
    (true, r2.1, ((chEff c0.fConnId cdata).app r2.2))

/-- The `WS_DATA` branch of `ProcessWS` (lines 212-298) once a connection with
the event's wire-session id has been found: empty payloads are a no-op,
undecodable frames are rejected without mutation, decoded frames are
processed by `processDecoded`. -/
def processData (w : Window) (wsId : Nat) (buf : List Char) (len : Nat)
    (c0 : WebConn) : Bool × Window × Effects :=
  if len = 0 then (true, w, Effects.nil)
  else
    match decodeFrame buf len with
    | .error msg => (false, w, errEff msg)
    | .ok (ackn, canSend, nchannel, cdata) =>
      processDecoded w wsId c0 ackn canSend nchannel cdata

/-- Model of `TWebWindow::ProcessWS`: the full event handler.  Returns the boolean the
handler reports to the transport, the successor window state, and the
observable effects. -/
def processWS (w : Window) (e : WSEvent) : Bool × Window × Effects :=
  if e.id = 0 then (true, w, Effects.nil)
  else
    match e with
    | .connect _ =>
      if w.fConnLimit ≠ 0 ∧ w.fConnLimit ≤ w.fConn.length then (false, w, Effects.nil)
      else (true, w, Effects.nil)
    | .ready wsId =>
      match findConn w.fConn wsId with
      | some _ => (false, w, errEff "WSHandle with given websocket id already exists")
      | none =>
        (true, { w with fConnCnt := w.fConnCnt + 1
                        fConn := w.fConn ++ [newConn (w.fConnCnt + 1) wsId w.fInitCredits] },
          Effects.nil)
    | .close wsId =>
      match findConn w.fConn wsId with
      | some c =>
        let eff := (if w.fHasDataCallback then cbEff c.fConnId connClosedChars
                    else Effects.nil).app { halted := [c.fProcId] }
        (true, { w with fConn := eraseFirst w.fConn wsId }, eff)
      | none => (true, w, Effects.nil)
    | .data wsId buf len =>
      match findConn w.fConn wsId with
      | none => (false, w, errEff "Get websocket data without valid connection - ignore!!!")
      | some c0 => processData w wsId buf len c0
    | .other _ => (false, w, errEff "only WS_DATA request expected!")

/-! ### Reachability and the protocol invariants -/
/-- One externally triggered transition of a window: an inbound websocket
event, or an application-level submit (`Send` / `SendBinary` /
`CloseConnection(s)` all funnel into `SubmitData`). -/
inductive Step : Window → Window → Prop where
  | ws (w : Window) (e : WSEvent) : Step w (processWS w e).2.1
  | submit (w : Window) (connid : Nat) (txt : Bool) (data : List Char) (chid : Int) :
      Step w (submitData w connid txt data chid).1

/-- States reachable from a given start state. -/
def Reachable (w0 w : Window) : Prop := Relation.ReflTransGen Step w0 w

/-- Per-connection protocol invariant: send credits are never negative and
never exceed the initial allowance plus all acknowledged operations received;
the queue respects the configured bound; and the transmitted items followed
by the still-queued items form an order-preserving subsequence of the
submitted items. -/
def ConnInv (credits maxQueue : Nat) (c : WebConn) : Prop :=
  0 ≤ c.fSendCredits ∧
  c.fSendCredits ≤ (credits : Int) + (c.ghostAckSum : Int) ∧
  c.fQueue.length ≤ maxQueue ∧
  List.Sublist (c.ghostSent ++ c.fQueue.map QueueItem.ghostId) c.ghostSubmitted

/-- Window-wide invariant: every connection satisfies `ConnInv` for this
window's configuration. -/
def WindowInv (w : Window) : Prop :=
  ∀ c ∈ w.fConn, ConnInv w.fInitCredits w.fMaxQueueLength c

/-- The handshake-relevant identity of a connection: wire-session id,
connection id, process handle, readiness stage.  Credit accounting, queueing
and the drain pass never change these. -/
def connSig (c : WebConn) : Nat × Nat × List Char × Nat :=
  (c.fWSId, c.fConnId, c.fProcId, c.fReady)

/-- Number of connections a `SubmitData(connid, …)` call applies to. -/
def matchCount (connid : Nat) : List WebConn → Nat
  | [] => 0
  | c :: rest => (if connid = 0 ∨ connid = c.fConnId then 1 else 0) + matchCount connid rest

/-! ### Concrete example states used by the witnesses -/
/-- A fresh window: no connection limit, queue bound 10, no panel, no keys,
not native-only, zero initial credits. -/
def exampleInit : Window := initWindow 0 10 [] [] false 0

/-- The window after a `WS_READY` event created connection 1 (stage Pending). -/
def exampleW1 : Window := (processWS exampleInit (.ready 7)).2.1

/-- The window after additionally submitting one text item (queued, since the
initial credit allowance is zero). -/
def exampleW2 : Window := (submitData exampleW1 0 true (String.toList "hi") 1).1

/-- A well-formed frame: the canonical encoding of three in-range accounting
fields and a payload (grammar `<uint> ":" <uint> ":" <uint> ":" <payload>`
with the numbers rendered canonically, as both peers produce them). -/
def WellFormedFrame (f : List Char) : Prop :=
  ∃ a c ch p, a ≤ ulongMax ∧ c ≤ ulongMax ∧ ch ≤ ulongMax ∧ f = encodeFrame a c ch p

/-! ### Theorems -/

/-! ### Codec lemmas -/
theorem char_toNat_digit (d : Nat) (hd : d < 10) :
    (Char.ofNat (48 + d)).toNat = 48 + d := by
  interval_cases d <;> decide

theorem isDigitC_digitChar (d : Nat) (hd : d < 10) :
    isDigitC (Char.ofNat (48 + d)) = true := by
  simp only [isDigitC, char_toNat_digit d hd, Bool.and_eq_true, decide_eq_true_eq]
  omega

theorem natCharsAux_digits (fuel : Nat) : ∀ n : Nat, n ≤ fuel →
    natCharsAux fuel n = ((Nat.digits 10 n).map (fun d => Char.ofNat (48 + d))).reverse := by
  induction fuel with
  | zero =>
    intro n hn
    have : n = 0 := by omega
    subst this
    simp [natCharsAux]
  | succ f ih =>
    intro n hn
    by_cases h0 : n = 0
    · subst h0
      simp [natCharsAux]
    · have h1 : n / 10 < n := Nat.div_lt_self (Nat.pos_of_ne_zero h0) (by norm_num)
      have hdiv : n / 10 ≤ f := by omega
      rw [show natCharsAux (f + 1) n
          = if n = 0 then [] else natCharsAux f (n / 10) ++ [Char.ofNat (48 + n % 10)]
          from rfl, if_neg h0, ih (n / 10) hdiv,
        Nat.digits_def' (by norm_num : (1 : Nat) < 10) (Nat.pos_of_ne_zero h0)]
      simp

theorem natChars_eq_digits (n : Nat) :
    natChars n = if n = 0 then ['0']
      else ((Nat.digits 10 n).map (fun d => Char.ofNat (48 + d))).reverse := by
  unfold natChars
  split
  · rfl
  · exact natCharsAux_digits n n le_rfl

theorem natChars_ne_nil (n : Nat) : natChars n ≠ [] := by
  rw [natChars_eq_digits]
  split
  · simp
  · simp [Nat.digits_ne_nil_iff_ne_zero, *]

theorem mem_natChars_digit (n : Nat) : ∀ x ∈ natChars n, isDigitC x = true := by
  intro x hx
  rw [natChars_eq_digits] at hx
  split at hx
  · simp at hx
    subst hx
    decide
  · simp only [List.mem_reverse, List.mem_map] at hx
    obtain ⟨d, hd, rfl⟩ := hx
    exact isDigitC_digitChar d (Nat.digits_lt_base (by norm_num) hd)

theorem foldl_digitsVal (ds : List Nat) (h : ∀ d ∈ ds, d < 10) (acc : Nat) :
    ((ds.map (fun d => Char.ofNat (48 + d))).reverse).foldl
        (fun a ch => 10 * a + (ch.toNat - 48)) acc
      = acc * 10 ^ ds.length + Nat.ofDigits 10 ds := by
  induction ds generalizing acc with
  | nil => simp
  | cons d tl ih =>
    have hd : d < 10 := h d (by simp)
    have htl : ∀ x ∈ tl, x < 10 := fun x hx => h x (by simp [hx])
    simp only [List.map_cons, List.reverse_cons, List.foldl_append, List.foldl_cons,
      List.foldl_nil, ih htl acc, char_toNat_digit d hd, Nat.ofDigits_cons,
      List.length_cons]
    ring_nf
    omega

theorem digitsVal_natChars (n : Nat) : digitsVal (natChars n) = n := by
  rw [natChars_eq_digits]
  unfold digitsVal
  split
  · simp [*]
  · rw [foldl_digitsVal _ (fun d hd => Nat.digits_lt_base (by norm_num) hd) 0]
    simp [Nat.ofDigits_digits]

theorem takeWhile_append_all {p : Char → Bool} (l : List Char) (y : Char)
    (t : List Char) (hl : ∀ x ∈ l, p x = true) (hy : p y = false) :
    (l ++ y :: t).takeWhile p = l := by
  induction l with
  | nil => simp [List.takeWhile_cons, hy]
  | cons a tl ih =>
    have ha : p a = true := hl a (by simp)
    simp only [List.cons_append, List.takeWhile_cons, ha, if_true]
    rw [ih (fun x hx => hl x (by simp [hx]))]

theorem strtoulFrom_at (buf : List Char) (pos n : Nat) (t : List Char)
    (hn : n ≤ ulongMax) (hdrop : buf.drop pos = natChars n ++ ':' :: t) :
    strtoulFrom buf pos = (n, pos + (natChars n).length) := by
  obtain ⟨d, ds, hds⟩ := List.exists_cons_of_ne_nil (natChars_ne_nil n)
  have hdd : isDigitC d = true := by
    apply mem_natChars_digit n
    rw [hds]; simp
  have hdigit : 48 ≤ d.toNat ∧ d.toNat ≤ 57 := by
    simpa [isDigitC, Bool.and_eq_true, decide_eq_true_eq] using hdd
  unfold strtoulFrom
  rw [hdrop, hds]
  have hspace : cIsSpace d = false := by
    simp only [cIsSpace, Bool.or_eq_false_iff, decide_eq_false_iff_not]
    omega
  have hminus : (d = '-') = False := by
    simp only [eq_iff_iff, iff_false]
    intro hcon
    subst hcon
    simp at hdigit
  have hplus : (d = '+') = False := by
    simp only [eq_iff_iff, iff_false]
    intro hcon
    subst hcon
    simp at hdigit
  simp only [List.cons_append, List.takeWhile_cons, hspace, Bool.false_eq_true, if_false,
    List.length_nil, List.drop_zero, List.headD_cons, hminus, hplus, decide_False,
    Bool.or_self, Bool.false_eq_true, if_false, List.drop_zero]
  have htail : List.takeWhile isDigitC (ds ++ ':' :: t) = ds :=
    takeWhile_append_all ds ':' t
      (fun x hx => mem_natChars_digit n x (by rw [hds]; simp [hx])) (by decide)
  simp only [hdd, if_true, htail, ← hds]
  have hne : (natChars n).isEmpty = false := by
    simp [List.isEmpty_iff, natChars_ne_nil n]
  simp only [hne, Bool.false_eq_true, if_false, digitsVal_natChars n]
  have hlt : (ulongMax < n) = False := by
    simp only [eq_iff_iff, iff_false, not_lt]
    exact hn
  simp only [hlt, if_false]
  simp

theorem charAt_of_drop (buf : List Char) (pos : Nat) (x : Char) (t : List Char)
    (h : buf.drop pos = x :: t) : charAt buf pos = x := by
  simp [charAt, h]

theorem intChars_ofNat (c : Nat) : intChars (c : Int) = natChars c := by
  rw [intChars, if_neg (by omega), Int.toNat_natCast]

theorem decode_encodeFrame (a c ch : Nat) (p : List Char)
    (ha : a ≤ ulongMax) (hc : c ≤ ulongMax) (hch : ch ≤ ulongMax) :
    decodeFrame (encodeFrame a c ch p) (encodeFrame a c ch p).length
      = Except.ok (a, c, ch, p) := by
  set f := encodeFrame a c ch p with hfdef
  have hf : f = natChars a ++ ':' :: (natChars c ++ ':' :: (natChars ch ++ ':' :: p)) := by
    simp [hfdef, encodeFrame, wireFrame, intChars_ofNat]
  have h1 : strtoulFrom f 0 = (a, (natChars a).length) := by
    have := strtoulFrom_at f 0 a _ ha (by simpa using hf)
    simpa using this
  have hd1 : f.drop (natChars a).length
      = ':' :: (natChars c ++ ':' :: (natChars ch ++ ':' :: p)) := by
    rw [hf]; exact List.drop_left _ _
  have hc1 : charAt f (natChars a).length = ':' := charAt_of_drop _ _ _ _ hd1
  have h2 : strtoulFrom f ((natChars a).length + 1)
      = (c, (natChars a).length + 1 + (natChars c).length) := by
    have hd : f.drop ((natChars a).length + 1)
        = natChars c ++ ':' :: (natChars ch ++ ':' :: p) := by
      have hsp : f = (natChars a ++ [':'])
          ++ (natChars c ++ ':' :: (natChars ch ++ ':' :: p)) := by simp [hf]
      rw [hsp]
      exact List.drop_left' (by simp)
    have := strtoulFrom_at f ((natChars a).length + 1) c _ hc hd
    simpa using this
  have hd2 : f.drop ((natChars a).length + 1 + (natChars c).length)
      = ':' :: (natChars ch ++ ':' :: p) := by
    have hsp : f = ((natChars a ++ [':']) ++ natChars c)
        ++ (':' :: (natChars ch ++ ':' :: p)) := by simp [hf]
    rw [hsp]
    exact List.drop_left' (by simp; omega)
  have hc2 : charAt f ((natChars a).length + 1 + (natChars c).length) = ':' :=
    charAt_of_drop _ _ _ _ hd2
  have h3 : strtoulFrom f ((natChars a).length + 1 + (natChars c).length + 1)
      = (ch, (natChars a).length + 1 + (natChars c).length + 1 + (natChars ch).length) := by
    have hd : f.drop ((natChars a).length + 1 + (natChars c).length + 1)
        = natChars ch ++ ':' :: p := by
      have hsp : f = ((natChars a ++ [':']) ++ (natChars c ++ [':']))
          ++ (natChars ch ++ ':' :: p) := by simp [hf]
      rw [hsp]
      exact List.drop_left' (by simp; omega)
    have := strtoulFrom_at f ((natChars a).length + 1 + (natChars c).length + 1) ch _ hch hd
    simpa using this
  have hd3 : f.drop ((natChars a).length + 1 + (natChars c).length + 1 + (natChars ch).length)
      = ':' :: p := by
    have hsp : f = (((natChars a ++ [':']) ++ (natChars c ++ [':'])) ++ natChars ch)
        ++ (':' :: p) := by simp [hf]
    rw [hsp]
    exact List.drop_left' (by simp; omega)
  have hc3 : charAt f ((natChars a).length + 1 + (natChars c).length + 1
      + (natChars ch).length) = ':' := charAt_of_drop _ _ _ _ hd3
  have hd4 : f.drop ((natChars a).length + 1 + (natChars c).length + 1
      + (natChars ch).length + 1) = p := by
    have hsp : f = ((((natChars a ++ [':']) ++ (natChars c ++ [':'])) ++ natChars ch)
        ++ [':']) ++ p := by simp [hf]
    rw [hsp]
    exact List.drop_left' (by simp; omega)
  have hlen : f.length = (natChars a).length + 1 + (natChars c).length + 1
      + (natChars ch).length + 1 + p.length := by
    rw [hf]; simp; omega
  unfold decodeFrame
  rw [h1]
  simp only [hc1, ne_eq, not_true_eq_false, if_false, ite_false]
  rw [h2]
  simp only [hc2, ne_eq, not_true_eq_false, ite_false]
  rw [h3]
  simp only [hc3, ne_eq, not_true_eq_false, ite_false]
  rw [hlen, hd4]
  have hnotlt : ¬ ((natChars a).length + 1 + (natChars c).length + 1
      + (natChars ch).length + 1 + p.length
      < (natChars a).length + 1 + (natChars c).length + 1 + (natChars ch).length + 1) := by
    omega
  simp only [hnotlt, ite_false]
  have htake : (natChars a).length + 1 + (natChars c).length + 1 + (natChars ch).length + 1
      + p.length - ((natChars a).length + 1 + (natChars c).length + 1
      + (natChars ch).length + 1) = p.length := by omega
  rw [htake, List.take_length]

theorem Effects.nil_app (e : Effects) : Effects.nil.app e = e := by
  cases e; simp [Effects.app, Effects.nil]

theorem Effects.app_nil (e : Effects) : e.app Effects.nil = e := by
  cases e; simp [Effects.app, Effects.nil]

theorem Effects.sent_app (e₁ e₂ : Effects) : (e₁.app e₂).sent = e₁.sent ++ e₂.sent := rfl

theorem Effects.callbacks_app (e₁ e₂ : Effects) :
    (e₁.app e₂).callbacks = e₁.callbacks ++ e₂.callbacks := rfl

theorem Effects.chCalls_app (e₁ e₂ : Effects) :
    (e₁.app e₂).chCalls = e₁.chCalls ++ e₂.chCalls := rfl

theorem Effects.errors_app (e₁ e₂ : Effects) :
    (e₁.app e₂).errors = e₁.errors ++ e₂.errors := rfl

/-- Case analysis of `SendDataViaConnection`: either nothing is sent and the
connection is untouched, or the credits were strictly positive, the receive
counter is acknowledged (reset) and exactly one credit is paid. -/
theorem sendDataViaConnection_cases (hh : Bool) (c : WebConn) (txt : Bool)
    (data : List Char) (chid : Int) :
    ((sendDataViaConnection hh c txt data chid).1 = c ∧
      (sendDataViaConnection hh c txt data chid).2.1 = none) ∨
    (0 < c.fSendCredits ∧
      (sendDataViaConnection hh c txt data chid).1
        = { c with fRecvCount := 0, fSendCredits := c.fSendCredits - 1 } ∧
      ((sendDataViaConnection hh c txt data chid).2.1).isSome = true) := by
  unfold sendDataViaConnection
  split
  · left; exact ⟨rfl, rfl⟩
  · split
    · left; exact ⟨rfl, rfl⟩
    · rename_i hcred
      right
      refine ⟨by omega, ?_, ?_⟩ <;> split <;> rfl

/-- A frame is handed to the transport only when send credits are strictly
positive, and that transmission consumes exactly one credit. -/
theorem sendDataViaConnection_credit (hh : Bool) (c : WebConn) (txt : Bool)
    (data : List Char) (chid : Int)
    (h : ((sendDataViaConnection hh c txt data chid).2.1).isSome = true) :
    0 < c.fSendCredits ∧
      (sendDataViaConnection hh c txt data chid).1.fSendCredits
        = c.fSendCredits - 1 := by
  rcases sendDataViaConnection_cases hh c txt data chid with ⟨_, hnone⟩ | ⟨hpos, heq, _⟩
  · rw [hnone] at h; simp at h
  · exact ⟨hpos, by rw [heq]⟩

theorem sweepConn_inv (hh : Bool) (cr mq : Nat) (c : WebConn)
    (h : ConnInv cr mq c) : ConnInv cr mq (sweepConn hh c).1 := by
  obtain ⟨h1, h2, h3, h4⟩ := h
  unfold sweepConn
  split
  · exact ⟨h1, h2, h3, h4⟩
  · rename_i hpos
    split
    · rename_i item rest hq
      rw [hq] at h3 h4
      simp only [List.length_cons] at h3
      simp only [List.map_cons] at h4
      rcases sendDataViaConnection_cases hh c item.fText item.fData item.fChID with
        ⟨heq, hnone⟩ | ⟨hcred, heq, hsome⟩
      · refine ⟨?_, ?_, ?_, ?_⟩ <;>
          simp only [heq, hnone, Option.isSome_none, Bool.false_eq_true, if_false,
            List.length_nil]
        · exact h1
        · exact h2
        · omega
        · exact (List.Sublist.append_left
            (List.Sublist.cons _ (List.Sublist.refl _)) _).trans h4
      · refine ⟨?_, ?_, ?_, ?_⟩ <;> simp only [heq, hsome, if_true]
        · omega
        · omega
        · omega
        · rw [← List.append_cons]
          exact h4
    · split
      · rcases sendDataViaConnection_cases hh c true (String.toList "KEEPALIVE") 0 with
          ⟨heq, _⟩ | ⟨hcred, heq, _⟩ <;> rw [heq]
        · exact ⟨h1, h2, h3, h4⟩
        · refine ⟨?_, ?_, h3, h4⟩
          · show (0 : Int) ≤ c.fSendCredits - 1
            omega
          · show c.fSendCredits - 1 ≤ (cr : Int) + (c.ghostAckSum : Int)
            omega
      · exact ⟨h1, h2, h3, h4⟩

theorem sweepList_inv (hh : Bool) (cr mq : Nat) (l : List WebConn)
    (h : ∀ c ∈ l, ConnInv cr mq c) :
    ∀ c ∈ (sweepList hh l).1, ConnInv cr mq c := by
  induction l with
  | nil => simp [sweepList]
  | cons a rest ih =>
    intro c hc
    simp only [sweepList, List.mem_cons] at hc
    rcases hc with hc | hc
    · rw [hc]; exact sweepConn_inv hh cr mq a (h a (by simp))
    · exact ih (fun x hx => h x (by simp [hx])) c hc

theorem checkLoop_inv (hh : Bool) (cr mq : Nat) (fuel : Nat) (l : List WebConn)
    (h : ∀ c ∈ l, ConnInv cr mq c) :
    ∀ c ∈ (checkLoop hh fuel l).1, ConnInv cr mq c := by
  induction fuel generalizing l with
  | zero => simpa [checkLoop] using h
  | succ n ih =>
    unfold checkLoop
    dsimp only
    split
    · exact ih _ (sweepList_inv hh cr mq l h)
    · exact sweepList_inv hh cr mq l h

theorem checkDataToSend_inv (w : Window) (h : WindowInv w) :
    WindowInv (checkDataToSend w).1 := by
  intro c hc
  exact checkLoop_inv w.fHasWSHandler w.fInitCredits w.fMaxQueueLength _ w.fConn h c hc

theorem submitOne_inv (hh : Bool) (connid : Nat) (txt : Bool) (chid : Int)
    (mq gid cr : Nat) (c : WebConn) (cnt : Int) (dv : List Char)
    (h : ConnInv cr mq c) :
    ConnInv cr mq (submitOne hh connid txt chid mq gid c cnt dv).1 := by
  obtain ⟨h1, h2, h3, h4⟩ := h
  unfold submitOne
  split
  · exact ⟨h1, h2, h3, h4⟩
  · split
    · rename_i hdir
      obtain ⟨hqe, hcred⟩ := hdir
      rw [hqe] at h4
      simp only [List.map_nil, List.append_nil] at h4
      rcases sendDataViaConnection_cases hh c txt dv chid with
        ⟨heq, hnone⟩ | ⟨hc2, heq, hsome⟩
      · refine ⟨?_, ?_, ?_, ?_⟩ <;> simp only [heq, hnone, Option.isSome_none,
          Bool.false_eq_true, if_false]
        · exact h1
        · exact h2
        · exact h3
        · exact List.Sublist.trans
            (by rw [hqe]; simpa using h4) (List.sublist_append_left _ _)
      · refine ⟨?_, ?_, ?_, ?_⟩ <;> simp only [heq, hsome, if_true]
        · show (0 : Int) ≤ c.fSendCredits - 1
          omega
        · show c.fSendCredits - 1 ≤ (cr : Int) + (c.ghostAckSum : Int)
          omega
        · show c.fQueue.length ≤ mq
          exact h3
        · show List.Sublist ((c.ghostSent ++ [gid]) ++ c.fQueue.map QueueItem.ghostId)
            (c.ghostSubmitted ++ [gid])
          rw [hqe]
          simpa using h4.append (List.Sublist.refl [gid])
    · split
      · rename_i hlen
        have hq : (c.fQueue ++ [(⟨chid, txt, dv, gid⟩ : QueueItem)]).length ≤ mq := by
          simp
          omega
        have hs : List.Sublist
            (c.ghostSent ++ (c.fQueue ++ [(⟨chid, txt, dv, gid⟩ : QueueItem)]).map
              QueueItem.ghostId) (c.ghostSubmitted ++ [gid]) := by
          simp only [List.map_append, List.map_cons, List.map_nil]
          rw [← List.append_assoc]
          exact h4.append (List.Sublist.refl _)
        split
        · exact ⟨h1, h2, hq, hs⟩
        · exact ⟨h1, h2, hq, hs⟩
      · exact ⟨h1, h2, h3, h4.trans (List.sublist_append_left _ _)⟩

theorem submitLoop_inv (hh : Bool) (connid : Nat) (txt : Bool) (chid : Int)
    (mq gid cr : Nat) (l : List WebConn) (cnt : Int) (dv : List Char)
    (h : ∀ c ∈ l, ConnInv cr mq c) :
    ∀ c ∈ (submitLoop hh connid txt chid mq gid l cnt dv).1, ConnInv cr mq c := by
  induction l generalizing cnt dv with
  | nil => simp [submitLoop]
  | cons a rest ih =>
    intro c hc
    simp only [submitLoop, List.mem_cons] at hc
    rcases hc with hc | hc
    · rw [hc]
      exact submitOne_inv hh connid txt chid mq gid cr a cnt dv (h a (by simp))
    · exact ih _ _ (fun x hx => h x (by simp [hx])) c hc

theorem submitData_inv (w : Window) (connid : Nat) (txt : Bool) (data : List Char)
    (chid : Int) (h : WindowInv w) : WindowInv (submitData w connid txt data chid).1 := by
  have h' : WindowInv { w with
      fConn := (submitLoop w.fHasWSHandler connid txt chid w.fMaxQueueLength
        w.ghostNextId w.fConn (if connid ≠ 0 then 1 else (w.fConn.length : Int)) data).1,
      ghostNextId := w.ghostNextId + 1 } := by
    intro c hc
    exact submitLoop_inv w.fHasWSHandler connid txt chid w.fMaxQueueLength
      w.ghostNextId w.fInitCredits w.fConn _ data h c hc
  exact fun c hc => checkDataToSend_inv _ h' c hc

theorem updateFirst_pres {P : WebConn → Prop} (l : List WebConn) (i : Nat)
    (f : WebConn → WebConn) (hf : ∀ c, P c → P (f c)) (h : ∀ c ∈ l, P c) :
    ∀ c ∈ updateFirst l i f, P c := by
  induction l with
  | nil => simp [updateFirst]
  | cons a rest ih =>
    intro c hc
    unfold updateFirst at hc
    split at hc <;> simp only [List.mem_cons] at hc <;> rcases hc with hc | hc
    · rw [hc]; exact hf a (h a (by simp))
    · exact h c (by simp [hc])
    · rw [hc]; exact h a (by simp)
    · exact ih (fun x hx => h x (by simp [hx])) c hc

theorem eraseFirst_subset (l : List WebConn) (i : Nat) :
    ∀ c ∈ eraseFirst l i, c ∈ l := by
  induction l with
  | nil => simp [eraseFirst]
  | cons a rest ih =>
    intro c hc
    unfold eraseFirst at hc
    split at hc
    · simp [hc]
    · simp only [List.mem_cons] at hc
      rcases hc with hc | hc
      · simp [hc]
      · simp [ih c hc]

theorem connInv_credit_update (cr mq ackn canSend : Nat) (c : WebConn)
    (h : ConnInv cr mq c) : ConnInv cr mq (creditUpdate ackn canSend c) := by
  obtain ⟨h1, h2, h3, h4⟩ := h
  refine ⟨?_, ?_, h3, h4⟩
  · show (0 : Int) ≤ c.fSendCredits + (ackn : Int)
    omega
  · show c.fSendCredits + (ackn : Int) ≤ (cr : Int) + ((c.ghostAckSum + ackn : Nat) : Int)
    push_cast
    omega

theorem windowInv_of (w w' : Window) (hinit : w'.fInitCredits = w.fInitCredits)
    (hmax : w'.fMaxQueueLength = w.fMaxQueueLength)
    (hconn : ∀ c ∈ w'.fConn, ConnInv w.fInitCredits w.fMaxQueueLength c) :
    WindowInv w' := by
  intro c hc
  rw [hinit, hmax]
  exact hconn c hc

theorem setReady_inv (w : Window) (wsId v : Nat) (h : WindowInv w) :
    WindowInv (setReady w wsId v) :=
  windowInv_of w _ rfl rfl (updateFirst_pres w.fConn wsId _ (fun _ hc => hc) h)

theorem erase_inv (w : Window) (wsId : Nat) (h : WindowInv w) :
    WindowInv { w with fConn := eraseFirst w.fConn wsId } :=
  windowInv_of w _ rfl rfl (fun c hc => h c (eraseFirst_subset _ _ c hc))

theorem creditUpdate_inv (w : Window) (wsId ackn canSend : Nat) (h : WindowInv w) :
    WindowInv { w with fConn := updateFirst w.fConn wsId (creditUpdate ackn canSend) } :=
  windowInv_of w _ rfl rfl (updateFirst_pres w.fConn wsId _
    (fun c hc => connInv_credit_update w.fInitCredits w.fMaxQueueLength ackn canSend c hc) h)

theorem consumeKey_inv (w : Window) (wsId : Nat) (key : List Char) (h : WindowInv w) :
    WindowInv (consumeKey w wsId key) := by
  unfold consumeKey
  split
  · exact windowInv_of w _ rfl rfl (updateFirst_pres w.fConn wsId _ (fun _ hc => hc) h)
  · exact h

theorem processDecoded_inv (w : Window) (wsId : Nat) (c0 : WebConn)
    (ackn canSend nchannel : Nat) (cdata : List Char) (h : WindowInv w) :
    WindowInv (processDecoded w wsId c0 ackn canSend nchannel cdata).2.1 := by
  have h1 := creditUpdate_inv w wsId ackn canSend h
  unfold processDecoded
  dsimp only
  split
  · split
    · split
      · exact erase_inv _ wsId h1
      · have h2 := consumeKey_inv _ wsId (cdata.drop 6) h1
        split
        · exact checkDataToSend_inv _ (setReady_inv _ wsId 5 (submitData_inv _ _ _ _ _ h2))
        · exact checkDataToSend_inv _ (setReady_inv _ wsId 10 h2)
    · exact checkDataToSend_inv _ h1
  · split
    · split
      · exact checkDataToSend_inv _ (setReady_inv _ wsId 10 h1)
      · exact checkDataToSend_inv _ (erase_inv _ wsId h1)
    · split
      · exact checkDataToSend_inv _ h1
      · exact checkDataToSend_inv _ h1

theorem processData_inv (w : Window) (wsId : Nat) (buf : List Char) (len : Nat)
    (c0 : WebConn) (h : WindowInv w) :
    WindowInv (processData w wsId buf len c0).2.1 := by
  unfold processData
  split
  · exact h
  · split
    · exact h
    · exact processDecoded_inv _ _ _ _ _ _ _ h

theorem connInv_newConn (cr mq connId wsId : Nat) :
    ConnInv cr mq (newConn connId wsId cr) := by
  refine ⟨?_, ?_, ?_, ?_⟩ <;> simp [newConn]

theorem processWS_inv (w : Window) (e : WSEvent) (h : WindowInv w) :
    WindowInv (processWS w e).2.1 := by
  unfold processWS
  split
  · exact h
  · split
    · split
      · exact h
      · exact h
    · split
      · exact h
      · intro c hc
        simp only [List.mem_append, List.mem_singleton] at hc
        rcases hc with hc | hc
        · exact h c hc
        · rw [hc]
          exact connInv_newConn _ _ _ _
    · split
      · exact erase_inv w _ h
      · exact h
    · split
      · exact h
      · exact processData_inv _ _ _ _ _ h
    · exact h

theorem step_inv (w w' : Window) (hs : Step w w') (h : WindowInv w) : WindowInv w' := by
  cases hs with
  | ws e => exact processWS_inv w e h
  | submit connid txt data chid => exact submitData_inv w connid txt data chid h

theorem reachable_inv (w0 w : Window) (h0 : WindowInv w0) (hr : Reachable w0 w) :
    WindowInv w := by
  induction hr with
  | refl => exact h0
  | tail _ hstep ih => exact step_inv _ _ hstep ih

theorem initWindow_inv (connLimit maxQueue : Nat) (panel : List Char)
    (keys : List (List Char × List Char)) (native : Bool) (credits : Nat) :
    WindowInv (initWindow connLimit maxQueue panel keys native credits) := by
  intro c hc
  simp [initWindow] at hc

theorem sendDataViaConnection_sig (hh : Bool) (c : WebConn) (txt : Bool)
    (data : List Char) (chid : Int) :
    connSig (sendDataViaConnection hh c txt data chid).1 = connSig c := by
  rcases sendDataViaConnection_cases hh c txt data chid with ⟨heq, _⟩ | ⟨_, heq, _⟩ <;>
    rw [heq]
  rfl

theorem sweepConn_sig (hh : Bool) (c : WebConn) :
    connSig (sweepConn hh c).1 = connSig c := by
  unfold sweepConn
  split
  · rfl
  · split
    · rename_i item rest hq
      exact sendDataViaConnection_sig hh c item.fText item.fData item.fChID
    · split
      · exact sendDataViaConnection_sig hh c true (String.toList "KEEPALIVE") 0
      · rfl

theorem sweepList_sig (hh : Bool) (l : List WebConn) :
    (sweepList hh l).1.map connSig = l.map connSig := by
  induction l with
  | nil => rfl
  | cons a rest ih => simp [sweepList, sweepConn_sig, ih]

theorem checkLoop_sig (hh : Bool) (fuel : Nat) (l : List WebConn) :
    (checkLoop hh fuel l).1.map connSig = l.map connSig := by
  induction fuel generalizing l with
  | zero => rfl
  | succ n ih =>
    unfold checkLoop
    dsimp only
    split
    · rw [ih, sweepList_sig]
    · rw [sweepList_sig]

theorem checkDataToSend_sig (w : Window) :
    (checkDataToSend w).1.fConn.map connSig = w.fConn.map connSig :=
  checkLoop_sig w.fHasWSHandler _ w.fConn

theorem submitOne_sig (hh : Bool) (connid : Nat) (txt : Bool) (chid : Int)
    (mq gid : Nat) (c : WebConn) (cnt : Int) (dv : List Char) :
    connSig (submitOne hh connid txt chid mq gid c cnt dv).1 = connSig c := by
  unfold submitOne
  split
  · rfl
  · split
    · exact sendDataViaConnection_sig hh c txt dv chid
    · split
      · split <;> rfl
      · rfl

theorem submitLoop_sig (hh : Bool) (connid : Nat) (txt : Bool) (chid : Int)
    (mq gid : Nat) (l : List WebConn) (cnt : Int) (dv : List Char) :
    (submitLoop hh connid txt chid mq gid l cnt dv).1.map connSig = l.map connSig := by
  induction l generalizing cnt dv with
  | nil => rfl
  | cons a rest ih => simp [submitLoop, submitOne_sig, ih]

theorem submitData_sig (w : Window) (connid : Nat) (txt : Bool) (data : List Char)
    (chid : Int) :
    (submitData w connid txt data chid).1.fConn.map connSig = w.fConn.map connSig := by
  unfold submitData
  dsimp only
  rw [checkDataToSend_sig, submitLoop_sig]

theorem findConn_map_sig (l l' : List WebConn) (i : Nat)
    (h : l'.map connSig = l.map connSig) :
    (findConn l' i).map connSig = (findConn l i).map connSig := by
  induction l generalizing l' with
  | nil =>
    cases l' with
    | nil => rfl
    | cons b rest' => simp at h
  | cons a rest ih =>
    cases l' with
    | nil => simp at h
    | cons b rest' =>
      simp only [List.map_cons, List.cons.injEq] at h
      obtain ⟨hb, hrest⟩ := h
      have hws : b.fWSId = a.fWSId := congrArg Prod.fst hb
      unfold findConn
      rw [hws]
      split
      · simpa using hb
      · exact ih rest' hrest

theorem findConn_updateFirst (l : List WebConn) (i : Nat) (f : WebConn → WebConn)
    (hf : ∀ c, (f c).fWSId = c.fWSId) :
    findConn (updateFirst l i f) i = (findConn l i).map f := by
  induction l with
  | nil => rfl
  | cons a rest ih =>
    by_cases hws : a.fWSId = i
    · simp [updateFirst, findConn, hws, hf a]
    · simp [updateFirst, findConn, hws, ih]

theorem findConn_append (pre : List WebConn) (c : WebConn) (post : List WebConn)
    (i : Nat) (hpre : ∀ x ∈ pre, x.fWSId ≠ i) (hc : c.fWSId = i) :
    findConn (pre ++ c :: post) i = some c := by
  induction pre with
  | nil => simp [findConn, hc]
  | cons a rest ih =>
    have ha : a.fWSId ≠ i := hpre a (by simp)
    simp only [List.cons_append, findConn, ha, if_false]
    exact ih (fun x hx => hpre x (by simp [hx]))

theorem sweepConn_no_callbacks (hh : Bool) (c : WebConn) :
    (sweepConn hh c).2.1.callbacks = [] ∧ (sweepConn hh c).2.1.chCalls = [] := by
  unfold sweepConn
  split
  · exact ⟨rfl, rfl⟩
  · split
    · exact ⟨rfl, rfl⟩
    · split
      · exact ⟨rfl, rfl⟩
      · exact ⟨rfl, rfl⟩

theorem sweepList_no_callbacks (hh : Bool) (l : List WebConn) :
    (sweepList hh l).2.1.callbacks = [] ∧ (sweepList hh l).2.1.chCalls = [] := by
  induction l with
  | nil => exact ⟨rfl, rfl⟩
  | cons a rest ih =>
    have ha := sweepConn_no_callbacks hh a
    simp only [sweepList, Effects.callbacks_app, Effects.chCalls_app, ha.1, ha.2,
      ih.1, ih.2]
    exact ⟨rfl, rfl⟩

theorem checkLoop_no_callbacks (hh : Bool) (fuel : Nat) (l : List WebConn) :
    (checkLoop hh fuel l).2.callbacks = [] ∧ (checkLoop hh fuel l).2.chCalls = [] := by
  induction fuel generalizing l with
  | zero => exact ⟨rfl, rfl⟩
  | succ n ih =>
    unfold checkLoop
    dsimp only
    split
    · have hs := sweepList_no_callbacks hh l
      simp only [Effects.callbacks_app, Effects.chCalls_app, hs.1, hs.2,
        (ih (sweepList hh l).1).1, (ih (sweepList hh l).1).2]
      exact ⟨rfl, rfl⟩
    · exact sweepList_no_callbacks hh l

theorem checkDataToSend_no_callbacks (w : Window) :
    (checkDataToSend w).2.callbacks = [] ∧ (checkDataToSend w).2.chCalls = [] :=
  checkLoop_no_callbacks w.fHasWSHandler _ w.fConn

theorem submitOne_no_callbacks (hh : Bool) (connid : Nat) (txt : Bool) (chid : Int)
    (mq gid : Nat) (c : WebConn) (cnt : Int) (dv : List Char) :
    (submitOne hh connid txt chid mq gid c cnt dv).2.2.2.callbacks = [] ∧
      (submitOne hh connid txt chid mq gid c cnt dv).2.2.2.chCalls = [] := by
  unfold submitOne
  split
  · exact ⟨rfl, rfl⟩
  · split
    · exact ⟨rfl, rfl⟩
    · split
      · split <;> exact ⟨rfl, rfl⟩
      · exact ⟨rfl, rfl⟩

theorem submitLoop_no_callbacks (hh : Bool) (connid : Nat) (txt : Bool) (chid : Int)
    (mq gid : Nat) (l : List WebConn) (cnt : Int) (dv : List Char) :
    (submitLoop hh connid txt chid mq gid l cnt dv).2.2.2.callbacks = [] ∧
      (submitLoop hh connid txt chid mq gid l cnt dv).2.2.2.chCalls = [] := by
  induction l generalizing cnt dv with
  | nil => exact ⟨rfl, rfl⟩
  | cons a rest ih =>
    have ha := submitOne_no_callbacks hh connid txt chid mq gid a cnt dv
    simp only [submitLoop, Effects.callbacks_app, Effects.chCalls_app, ha.1, ha.2]
    have hr := ih (submitOne hh connid txt chid mq gid a cnt dv).2.1
      (submitOne hh connid txt chid mq gid a cnt dv).2.2.1
    simp only [hr.1, hr.2]
    exact ⟨rfl, rfl⟩

theorem submitData_no_callbacks (w : Window) (connid : Nat) (txt : Bool)
    (data : List Char) (chid : Int) :
    (submitData w connid txt data chid).2.callbacks = [] ∧
      (submitData w connid txt data chid).2.chCalls = [] := by
  unfold submitData
  dsimp only
  have h1 := submitLoop_no_callbacks w.fHasWSHandler connid txt chid w.fMaxQueueLength
    w.ghostNextId w.fConn (if connid ≠ 0 then 1 else (w.fConn.length : Int)) data
  constructor
  · rw [Effects.callbacks_app, h1.1, (checkDataToSend_no_callbacks _).1]
    rfl
  · rw [Effects.chCalls_app, h1.2, (checkDataToSend_no_callbacks _).2]
    rfl

theorem sendDataViaConnection_text (c : WebConn) (data : List Char) (chid : Int)
    (hws : c.fWSId ≠ 0) (hcred : 0 < c.fSendCredits) :
    sendDataViaConnection true c true data chid
      = ({ c with fRecvCount := 0, fSendCredits := c.fSendCredits - 1 },
         some (.text c.fWSId (wireFrame c.fRecvCount c.fSendCredits chid data)), []) := by
  unfold sendDataViaConnection
  rw [if_neg (by simp [hws]), if_neg (by omega), if_pos rfl]

theorem submitOne_skip (hh : Bool) (connid : Nat) (txt : Bool) (chid : Int)
    (mq gid : Nat) (c : WebConn) (cnt : Int) (dv : List Char)
    (hskip : connid ≠ 0 ∧ connid ≠ c.fConnId) :
    submitOne hh connid txt chid mq gid c cnt dv = (c, cnt, dv, Effects.nil) := by
  unfold submitOne
  rw [if_pos hskip]

theorem submitOne_direct (connid : Nat) (chid : Int) (mq gid : Nat) (c : WebConn)
    (cnt : Int) (dv : List Char) (hmatch : ¬(connid ≠ 0 ∧ connid ≠ c.fConnId))
    (hq : c.fQueue = []) (hcred : 0 < c.fSendCredits) (hws : c.fWSId ≠ 0) :
    submitOne true connid true chid mq gid c cnt dv
      = ({ c with
            fRecvCount := 0
            fSendCredits := c.fSendCredits - 1
            ghostSubmitted := c.ghostSubmitted ++ [gid]
            ghostSent := c.ghostSent ++ [gid] },
         cnt, dv,
         { sent := [.text c.fWSId (wireFrame c.fRecvCount c.fSendCredits chid dv)] }) := by
  unfold submitOne
  rw [if_neg hmatch, if_pos ⟨hq, hcred⟩]
  dsimp only
  rw [sendDataViaConnection_text c dv chid hws hcred]
  rfl

theorem submitOne_overflow (hh : Bool) (connid : Nat) (txt : Bool) (chid : Int)
    (mq gid : Nat) (c : WebConn) (cnt : Int) (dv : List Char)
    (hmatch : connid = 0 ∨ connid = c.fConnId)
    (hfull : ¬(c.fQueue = [] ∧ 0 < c.fSendCredits))
    (hlen : mq ≤ c.fQueue.length) :
    submitOne hh connid txt chid mq gid c cnt dv
      = ({ c with ghostSubmitted := c.ghostSubmitted ++ [gid] }, cnt, dv,
         { errors := ["Maximum queue length achieved"] }) := by
  unfold submitOne
  rw [if_neg (by tauto), if_neg hfull, if_neg (by omega)]

theorem head?_append_of_head? {a : Type} (l1 l2 : List a) (x : a)
    (h : l1.head? = some x) : (l1 ++ l2).head? = some x := by
  cases l1 with
  | nil => simp at h
  | cons y t => simpa using h

theorem submitLoop_sent_head (connid : Nat) (chid : Int) (mq gid : Nat)
    (pre : List WebConn) (c : WebConn) (post : List WebConn) (cnt : Int)
    (dv : List Char) (hpre : ∀ x ∈ pre, connid ≠ x.fConnId) (hconnid : connid ≠ 0)
    (hmatch : connid = c.fConnId) (hq : c.fQueue = []) (hcred : 0 < c.fSendCredits)
    (hws : c.fWSId ≠ 0) :
    (submitLoop true connid true chid mq gid (pre ++ c :: post) cnt dv).2.2.2.sent.head?
      = some (.text c.fWSId (wireFrame c.fRecvCount c.fSendCredits chid dv)) := by
  induction pre with
  | nil =>
    simp only [List.nil_append, submitLoop]
    rw [submitOne_direct connid chid mq gid c cnt dv (by omega) hq hcred hws]
    dsimp only
    rw [Effects.sent_app]
    rfl
  | cons a pre2 ih =>
    simp only [List.cons_append, submitLoop]
    rw [submitOne_skip true connid true chid mq gid a cnt dv
      ⟨hconnid, hpre a (by simp)⟩]
    dsimp only
    rw [Effects.sent_app]
    show ((Effects.nil.sent ++ _).head? = _)
    rw [show Effects.nil.sent = ([] : List OutMsg) from rfl, List.nil_append]
    exact ih (fun x hx => hpre x (by simp [hx]))

theorem matchCount_cons_match (connid : Nat) (a : WebConn) (rest : List WebConn)
    (h : connid = 0 ∨ connid = a.fConnId) :
    matchCount connid (a :: rest) = 1 + matchCount connid rest := by
  show (if connid = 0 ∨ connid = a.fConnId then 1 else 0) + matchCount connid rest
    = 1 + matchCount connid rest
  rw [if_pos h]

theorem matchCount_cons_skip (connid : Nat) (a : WebConn) (rest : List WebConn)
    (h : ¬(connid = 0 ∨ connid = a.fConnId)) :
    matchCount connid (a :: rest) = matchCount connid rest := by
  show (if connid = 0 ∨ connid = a.fConnId then 1 else 0) + matchCount connid rest
    = matchCount connid rest
  rw [if_neg h]
  omega

theorem submitLoop_queues (hh : Bool) (connid : Nat) (txt : Bool) (chid : Int)
    (mq gid : Nat) (data : List Char) :
    ∀ (l : List WebConn) (cnt : Int) (dv : List Char),
      (dv = data ∨ matchCount connid l = 0) →
      (matchCount connid l : Int) ≤ cnt →
      List.Forall₂ (fun c c2 => c2.fQueue = c.fQueue ∨
          c2.fQueue = c.fQueue ++ [⟨chid, txt, data, gid⟩])
        l (submitLoop hh connid txt chid mq gid l cnt dv).1 := by
  intro l
  induction l with
  | nil =>
    intro cnt dv h1 h2
    exact List.Forall₂.nil
  | cons a rest ih =>
    intro cnt dv h1 h2
    simp only [submitLoop]
    by_cases hskip : connid ≠ 0 ∧ connid ≠ a.fConnId
    · rw [submitOne_skip hh connid txt chid mq gid a cnt dv hskip]
      dsimp only
      have hmc : matchCount connid (a :: rest) = matchCount connid rest :=
        matchCount_cons_skip connid a rest (by tauto)
      rw [hmc] at h1 h2
      exact List.Forall₂.cons (Or.inl rfl) (ih cnt dv h1 h2)
    · have hmatch : connid = 0 ∨ connid = a.fConnId := by tauto
      have hmc : matchCount connid (a :: rest) = 1 + matchCount connid rest :=
        matchCount_cons_match connid a rest hmatch
      rw [hmc] at h1 h2
      have hdv : dv = data := by
        rcases h1 with h | h
        · exact h
        · omega
      subst hdv
      unfold submitOne
      rw [if_neg (by tauto)]
      split
      · dsimp only
        refine List.Forall₂.cons (Or.inl ?_) (ih cnt dv (Or.inl rfl) (by omega))
        rcases sendDataViaConnection_cases hh a txt dv chid with ⟨heq, _⟩ | ⟨_, heq, _⟩ <;>
          rw [heq]
      · split
        · split
          · dsimp only
            exact List.Forall₂.cons (Or.inr rfl) (ih (cnt - 1) dv (Or.inl rfl) (by omega))
          · rename_i hzero
            dsimp only
            refine List.Forall₂.cons (Or.inr rfl) (ih (cnt - 1) [] (Or.inr ?_) ?_)
            · omega
            · omega
        · dsimp only
          exact List.Forall₂.cons (Or.inl rfl) (ih cnt dv (Or.inl rfl) (by omega))

theorem consumeKey_fPanelName (w : Window) (i : Nat) (k : List Char) :
    (consumeKey w i k).fPanelName = w.fPanelName := by
  unfold consumeKey
  split <;> rfl

theorem consumeKey_fInitCredits (w : Window) (i : Nat) (k : List Char) :
    (consumeKey w i k).fInitCredits = w.fInitCredits := by
  unfold consumeKey
  split <;> rfl

theorem processDecoded_fInitCredits (w : Window) (wsId : Nat) (c0 : WebConn)
    (ackn canSend nchannel : Nat) (cdata : List Char) :
    (processDecoded w wsId c0 ackn canSend nchannel cdata).2.1.fInitCredits
      = w.fInitCredits := by
  unfold processDecoded
  dsimp only
  split
  · split
    · split
      · rfl
      · split
        · show (consumeKey _ wsId _).fInitCredits = w.fInitCredits
          rw [consumeKey_fInitCredits]
        · show (consumeKey _ wsId _).fInitCredits = w.fInitCredits
          rw [consumeKey_fInitCredits]
    · rfl
  · split
    · split
      · rfl
      · rfl
    · split
      · rfl
      · rfl

theorem processWS_fInitCredits (w : Window) (e : WSEvent) :
    (processWS w e).2.1.fInitCredits = w.fInitCredits := by
  unfold processWS
  split
  · rfl
  · split
    · split
      · rfl
      · rfl
    · split
      · rfl
      · rfl
    · split
      · rfl
      · rfl
    · split
      · rfl
      · unfold processData
        split
        · rfl
        · split
          · rfl
          · exact processDecoded_fInitCredits _ _ _ _ _ _ _
    · rfl

theorem step_fInitCredits (w w2 : Window) (hs : Step w w2) :
    w2.fInitCredits = w.fInitCredits := by
  cases hs with
  | ws e => exact processWS_fInitCredits w e
  | submit connid txt data chid => rfl

theorem reachable_fInitCredits (w0 w : Window) (hr : Reachable w0 w) :
    w.fInitCredits = w0.fInitCredits := by
  induction hr with
  | refl => rfl
  | tail _ hstep ih => rw [step_fInitCredits _ _ hstep, ih]

theorem updateFirst_append (pre : List WebConn) (c : WebConn) (post : List WebConn)
    (i : Nat) (f : WebConn → WebConn) (hpre : ∀ x ∈ pre, x.fWSId ≠ i)
    (hc : c.fWSId = i) :
    updateFirst (pre ++ c :: post) i f = pre ++ f c :: post := by
  induction pre with
  | nil => simp [updateFirst, hc]
  | cons x rest ih =>
    have hx : x.fWSId ≠ i := hpre x (by simp)
    simp only [List.cons_append, updateFirst, hx, if_false]
    exact congrArg (fun t => x :: t) (ih (fun y hy => hpre y (by simp [hy])))

theorem consumeKey_none (w : Window) (i : Nat) (k : List Char)
    (h : lookupKey w.fKeys k = none) : consumeKey w i k = w := by
  unfold consumeKey
  rw [h]

theorem consumeKey_some (w : Window) (i : Nat) (k : List Char) (pid : List Char)
    (h : lookupKey w.fKeys k = some pid) :
    consumeKey w i k
      = { w with
          fConn := updateFirst w.fConn i (fun c => { c with fProcId := pid }),
          fKeys := eraseKey w.fKeys k } := by
  unfold consumeKey
  rw [h]

theorem findConn_sig_of_map (l l2 : List WebConn) (i : Nat) (c : WebConn)
    (hmap : l2.map connSig = l.map connSig) (h : findConn l i = some c) :
    ∃ c2, findConn l2 i = some c2 ∧ connSig c2 = connSig c := by
  have hmap2 := findConn_map_sig l l2 i hmap
  rw [h] at hmap2
  cases hopt : findConn l2 i with
  | none =>
    rw [hopt] at hmap2
    exact absurd hmap2 (by simp)
  | some c2 =>
    rw [hopt] at hmap2
    simp only [Option.map] at hmap2
    exact ⟨c2, rfl, by injection hmap2⟩

theorem connSig_fProcId (c c2 : WebConn) (h : connSig c2 = connSig c) :
    c2.fProcId = c.fProcId := by
  have := congrArg (fun t => t.2.2.1) h
  simpa [connSig] using this

theorem connSig_fReady (c c2 : WebConn) (h : connSig c2 = connSig c) :
    c2.fReady = c.fReady := by
  have := congrArg (fun t => t.2.2.2) h
  simpa [connSig] using this

theorem readyChars_take (k : List Char) : (readyChars ++ k).take 6 = readyChars :=
  List.take_left' (by decide)

theorem readyChars_drop (k : List Char) : (readyChars ++ k).drop 6 = k :=
  List.drop_left' (by decide)

theorem consumeKey_fMaxQueueLength (w : Window) (i : Nat) (k : List Char) :
    (consumeKey w i k).fMaxQueueLength = w.fMaxQueueLength := by
  unfold consumeKey
  split <;> rfl

theorem processDecoded_fMaxQueueLength (w : Window) (wsId : Nat) (c0 : WebConn)
    (ackn canSend nchannel : Nat) (cdata : List Char) :
    (processDecoded w wsId c0 ackn canSend nchannel cdata).2.1.fMaxQueueLength
      = w.fMaxQueueLength := by
  unfold processDecoded
  dsimp only
  split
  · split
    · split
      · rfl
      · split
        · show (consumeKey _ wsId _).fMaxQueueLength = w.fMaxQueueLength
          rw [consumeKey_fMaxQueueLength]
        · show (consumeKey _ wsId _).fMaxQueueLength = w.fMaxQueueLength
          rw [consumeKey_fMaxQueueLength]
    · rfl
  · split
    · split
      · rfl
      · rfl
    · split
      · rfl
      · rfl

theorem processWS_fMaxQueueLength (w : Window) (e : WSEvent) :
    (processWS w e).2.1.fMaxQueueLength = w.fMaxQueueLength := by
  unfold processWS
  split
  · rfl
  · split
    · split
      · rfl
      · rfl
    · split
      · rfl
      · rfl
    · split
      · rfl
      · rfl
    · split
      · rfl
      · unfold processData
        split
        · rfl
        · split
          · rfl
          · exact processDecoded_fMaxQueueLength _ _ _ _ _ _ _
    · rfl

theorem step_fMaxQueueLength (w w2 : Window) (hs : Step w w2) :
    w2.fMaxQueueLength = w.fMaxQueueLength := by
  cases hs with
  | ws e => exact processWS_fMaxQueueLength w e
  | submit connid txt data chid => rfl

theorem reachable_fMaxQueueLength (w0 w : Window) (hr : Reachable w0 w) :
    w.fMaxQueueLength = w0.fMaxQueueLength := by
  induction hr with
  | refl => rfl
  | tail _ hstep ih => rw [step_fMaxQueueLength _ _ hstep, ih]

/-! ### Claim theorems -/
/-- C3: an inbound `WS_DATA` frame in which one of the three leading unsigned
integers lacks its trailing `':'` delimiter, or whose computed payload offset
exceeds the buffer length, is rejected: `ProcessWS` returns `false`, only the
decode error is logged, and the window state — send credits, receive counter,
client credits, readiness stage, queues, and the connection registry — is
exactly unchanged. -/
theorem c3_malformed_frame_rejected (w : Window) (wsId : Nat) (buf : List Char)
    (len : Nat) (msg : String) (c0 : WebConn) (hws : wsId ≠ 0)
    (hfind : findConn w.fConn wsId = some c0) (hlen : 0 < len)
    (hdec : decodeFrame buf len = .error msg) :
    processWS w (.data wsId buf len) = (false, w, errEff msg) := by
  unfold processWS
  rw [show WSEvent.id (.data wsId buf len) = wsId from rfl, if_neg hws]
  dsimp only
  rw [hfind]
  dsimp only
  unfold processData
  rw [if_neg (by omega), hdec]

/-- C3 witness: the spec scenario `"12:notanumber:"` — the second integer is
missing its delimiter; the event is rejected and the state is untouched. -/
theorem c3_malformed_frame_rejected_witness :
    decodeFrame (String.toList "12:notanumber:") 14 = .error "missing can_send counter" ∧
    processWS exampleW1 (.data 7 (String.toList "12:notanumber:") 14)
      = (false, exampleW1, errEff "missing can_send counter") := by
  refine ⟨by rfl, ?_⟩
  exact c3_malformed_frame_rejected exampleW1 7 (String.toList "12:notanumber:") 14
    "missing can_send counter" (newConn 1 7 0) (by decide) (by decide) (by decide)
    (by rfl)

/-- C8: round-trip of the wire codec — decoding a well-formed frame into its
three accounting integers, channel id and payload, and re-encoding a frame
from those identical fields, reproduces the original byte sequence. -/
theorem c8_roundtrip (f : List Char) (h : WellFormedFrame f) :
    ∃ t : Nat × Nat × Nat × List Char,
      decodeFrame f f.length = .ok t ∧ encodeFrame t.1 t.2.1 t.2.2.1 t.2.2.2 = f := by
  obtain ⟨a, c, ch, p, ha, hc, hch, rfl⟩ := h
  exact ⟨(a, c, ch, p), decode_encodeFrame a c ch p ha hc hch, rfl⟩

/-- C8 witness: the concrete frame `"3:10:1:hi"` decodes to `(3, 10, 1, "hi")`
and re-encodes to itself. -/
theorem c8_roundtrip_witness :
    ∃ t : Nat × Nat × Nat × List Char,
      decodeFrame (encodeFrame 3 10 1 (String.toList "hi"))
          (encodeFrame 3 10 1 (String.toList "hi")).length = .ok t ∧
        encodeFrame t.1 t.2.1 t.2.2.1 t.2.2.2 = encodeFrame 3 10 1 (String.toList "hi") :=
  c8_roundtrip (encodeFrame 3 10 1 (String.toList "hi"))
    ⟨3, 10, 1, String.toList "hi", by decide, by decide, by decide, rfl⟩

/-- C9: a connection limit of zero means unlimited.  A `WS_CONNECT` event is
refused exactly when the event carries a nonzero wire-session id, the limit is
nonzero, and the current connection count has reached it; in particular with
limit 0 every connect is accepted, and the event never mutates the state. -/
theorem c9_zero_limit_unlimited (w : Window) (i : Nat) :
    ((processWS w (.connect i)).1 = false ↔
      (i ≠ 0 ∧ w.fConnLimit ≠ 0 ∧ w.fConnLimit ≤ w.fConn.length)) ∧
    (processWS w (.connect i)).2.1 = w := by
  unfold processWS
  rw [show WSEvent.id (.connect i) = i from rfl]
  by_cases hi : i = 0
  · rw [if_pos hi]
    refine ⟨⟨fun h => by simp at h, fun h => absurd hi h.1⟩, rfl⟩
  · rw [if_neg hi]
    dsimp only
    by_cases hl : w.fConnLimit ≠ 0 ∧ w.fConnLimit ≤ w.fConn.length
    · rw [if_pos hl]
      exact ⟨⟨fun _ => ⟨hi, hl.1, hl.2⟩, fun _ => rfl⟩, rfl⟩
    · rw [if_neg hl]
      refine ⟨⟨fun h => by simp at h, fun h => absurd ⟨h.2.1, h.2.2⟩ hl⟩, rfl⟩

/-- C4: on every reachable state, every connection's send-credit counter is
nonnegative and bounded by the initial credit allowance plus the sum of all
acknowledged-operation counts received on that connection; and a frame is
actually transmitted only when send credits are strictly positive, consuming
exactly one credit. -/
theorem c4_credit_bounds (connLimit maxQueue : Nat) (panel : List Char)
    (keys : List (List Char × List Char)) (native : Bool) (credits : Nat)
    (w : Window)
    (hr : Reachable (initWindow connLimit maxQueue panel keys native credits) w) :
    (∀ c ∈ w.fConn, 0 ≤ c.fSendCredits ∧
      c.fSendCredits ≤ (credits : Int) + (c.ghostAckSum : Int)) ∧
    (∀ (hh : Bool) (c : WebConn) (txt : Bool) (data : List Char) (chid : Int),
      ((sendDataViaConnection hh c txt data chid).2.1).isSome = true →
        0 < c.fSendCredits ∧
        (sendDataViaConnection hh c txt data chid).1.fSendCredits
          = c.fSendCredits - 1) := by
  constructor
  · intro c hc
    have hinv := reachable_inv _ w
      (initWindow_inv connLimit maxQueue panel keys native credits) hr c hc
    have hcfg : w.fInitCredits = credits := reachable_fInitCredits _ _ hr
    obtain ⟨h1, h2, _, _⟩ := hinv
    rw [hcfg] at h2
    exact ⟨h1, h2⟩
  · exact fun hh c txt data chid h => sendDataViaConnection_credit hh c txt data chid h

/-- C4 witness: the credit bounds at a concrete two-step reachable state. -/
theorem c4_credit_bounds_witness :
    Reachable (initWindow 0 10 [] [] false 0) exampleW1 ∧
    ∀ c ∈ exampleW1.fConn, 0 ≤ c.fSendCredits ∧
      c.fSendCredits ≤ ((0 : Nat) : Int) + (c.ghostAckSum : Int) := by
  have hr : Reachable (initWindow 0 10 [] [] false 0) exampleW1 :=
    Relation.ReflTransGen.tail Relation.ReflTransGen.refl (Step.ws exampleInit (.ready 7))
  exact ⟨hr, (c4_credit_bounds 0 10 [] [] false 0 exampleW1 hr).1⟩

/-- C5: on every reachable state, no connection's outbound queue exceeds the
configured maximum queue length; and a `SubmitData` iteration that can neither
transmit directly nor enqueue (queue at the maximum) leaves the target
connection's queue and credits unchanged, transmits nothing, and logs the
overflow error instead of failing silently. -/
theorem c5_queue_bound (connLimit maxQueue : Nat) (panel : List Char)
    (keys : List (List Char × List Char)) (native : Bool) (credits : Nat)
    (w : Window)
    (hr : Reachable (initWindow connLimit maxQueue panel keys native credits) w) :
    (∀ c ∈ w.fConn, c.fQueue.length ≤ maxQueue) ∧
    (∀ (hh : Bool) (connid : Nat) (txt : Bool) (chid : Int) (gid : Nat)
        (c : WebConn) (cnt : Int) (dv : List Char),
      (connid = 0 ∨ connid = c.fConnId) →
      ¬(c.fQueue = [] ∧ 0 < c.fSendCredits) →
      maxQueue ≤ c.fQueue.length →
      (submitOne hh connid txt chid maxQueue gid c cnt dv).1.fQueue = c.fQueue ∧
      (submitOne hh connid txt chid maxQueue gid c cnt dv).1.fSendCredits
        = c.fSendCredits ∧
      (submitOne hh connid txt chid maxQueue gid c cnt dv).2.2.2.errors
        = ["Maximum queue length achieved"] ∧
      (submitOne hh connid txt chid maxQueue gid c cnt dv).2.2.2.sent = []) := by
  constructor
  · intro c hc
    have hinv := reachable_inv _ w
      (initWindow_inv connLimit maxQueue panel keys native credits) hr c hc
    have hcfg : w.fMaxQueueLength = maxQueue := reachable_fMaxQueueLength _ _ hr
    obtain ⟨_, _, h3, _⟩ := hinv
    rw [hcfg] at h3
    exact h3
  · intro hh connid txt chid gid c cnt dv hmatch hfull hlen
    rw [submitOne_overflow hh connid txt chid maxQueue gid c cnt dv hmatch hfull hlen]
    exact ⟨rfl, rfl, rfl, rfl⟩

/-- C5 witness: the queue bound at a concrete reachable state with one queued
item, and the overflow behaviour at a connection whose queue is full. -/
theorem c5_queue_bound_witness :
    Reachable (initWindow 0 10 [] [] false 0) exampleW2 ∧
    (∀ c ∈ exampleW2.fConn, c.fQueue.length ≤ 10) ∧
    ((submitOne true 1 true 1 0 3 (newConn 1 7 0) 1 (String.toList "x")).2.2.2.errors
      = ["Maximum queue length achieved"]) := by
  have hr : Reachable (initWindow 0 10 [] [] false 0) exampleW2 :=
    Relation.ReflTransGen.tail
      (Relation.ReflTransGen.tail Relation.ReflTransGen.refl
        (Step.ws exampleInit (.ready 7)))
      (Step.submit exampleW1 0 true (String.toList "hi") 1)
  refine ⟨hr, (c5_queue_bound 0 10 [] [] false 0 exampleW2 hr).1, ?_⟩
  exact ((c5_queue_bound 0 0 [] [] false 0 (initWindow 0 0 [] [] false 0)
    Relation.ReflTransGen.refl).2 true 1 true 1 3 (newConn 1 7 0) 1 (String.toList "x")
    (by decide) (by decide) (by decide)).2.2.1

/-- C7: per-connection FIFO order.  On every reachable state, for every
connection, the sequence of transmitted submission ids followed by the ids
still queued is an order-preserving subsequence of the submission order; in
particular the transmitted sequence itself never reorders submissions,
independently of other connections' traffic. -/
theorem c7_fifo_order (connLimit maxQueue : Nat) (panel : List Char)
    (keys : List (List Char × List Char)) (native : Bool) (credits : Nat)
    (w : Window)
    (hr : Reachable (initWindow connLimit maxQueue panel keys native credits) w) :
    ∀ c ∈ w.fConn,
      List.Sublist (c.ghostSent ++ c.fQueue.map QueueItem.ghostId) c.ghostSubmitted ∧
      List.Sublist c.ghostSent c.ghostSubmitted := by
  intro c hc
  have hinv := reachable_inv _ w
    (initWindow_inv connLimit maxQueue panel keys native credits) hr c hc
  obtain ⟨_, _, _, h4⟩ := hinv
  exact ⟨h4, (List.sublist_append_left _ _).trans h4⟩

/-- C7 witness: the FIFO invariant at a concrete reachable state with one
queued submission. -/
theorem c7_fifo_order_witness :
    Reachable (initWindow 0 10 [] [] false 0) exampleW2 ∧
    ∀ c ∈ exampleW2.fConn,
      List.Sublist (c.ghostSent ++ c.fQueue.map QueueItem.ghostId) c.ghostSubmitted ∧
      List.Sublist c.ghostSent c.ghostSubmitted := by
  have hr : Reachable (initWindow 0 10 [] [] false 0) exampleW2 :=
    Relation.ReflTransGen.tail
      (Relation.ReflTransGen.tail Relation.ReflTransGen.refl
        (Step.ws exampleInit (.ready 7)))
      (Step.submit exampleW1 0 true (String.toList "hi") 1)
  exact ⟨hr, c7_fifo_order 0 10 [] [] false 0 exampleW2 hr⟩

/-- C10: a Pending connection that sends `READY=<key>` on channel 0 with a key
absent from the Key Table, on a window that is not native-only, proceeds with
the handshake exactly as in the keyed case: the event is accepted, the Key
Table is unchanged, the connection's process handle is unchanged (still
unset), and its stage advances to PanelWait(5) when a panel name is
configured, else directly to Ready(10). -/
theorem c10_unknown_key (w : Window) (wsId : Nat) (buf : List Char) (len : Nat)
    (c0 : WebConn) (a cs : Nat) (k : List Char)
    (hws : wsId ≠ 0) (hfind : findConn w.fConn wsId = some c0)
    (hready : c0.fReady = 0) (hlen : 0 < len)
    (hdec : decodeFrame buf len = .ok (a, cs, 0, readyChars ++ k))
    (hkey : lookupKey w.fKeys k = none) (hnative : w.fNativeOnly = false) :
    (processWS w (.data wsId buf len)).1 = true ∧
    (processWS w (.data wsId buf len)).2.1.fKeys = w.fKeys ∧
    ∃ c2, findConn (processWS w (.data wsId buf len)).2.1.fConn wsId = some c2 ∧
      c2.fProcId = c0.fProcId ∧
      c2.fReady = (if w.fPanelName = [] then 10 else 5) := by
  have hred : processWS w (.data wsId buf len)
      = processDecoded w wsId c0 a cs 0 (readyChars ++ k) := by
    unfold processWS
    rw [show WSEvent.id (.data wsId buf len) = wsId from rfl, if_neg hws]
    dsimp only
    rw [hfind]
    dsimp only
    unfold processData
    rw [if_neg (by omega), hdec]
  rw [hred]
  unfold processDecoded
  dsimp only
  rw [if_pos rfl, if_pos ⟨readyChars_take k, hready⟩, readyChars_drop]
  set W1 : Window := { w with fConn := updateFirst w.fConn wsId (creditUpdate a cs) }
    with hW1
  have hkey1 : lookupKey W1.fKeys k = none := hkey
  have hnative1 : W1.fNativeOnly = false := hnative
  rw [if_neg (by simp [hkey1, hnative1, hkey, hnative])]
  rw [consumeKey_none W1 wsId k hkey1]
  have hfind1 : findConn W1.fConn wsId = some (creditUpdate a cs c0) := by
    show findConn (updateFirst w.fConn wsId (creditUpdate a cs)) wsId
      = some (creditUpdate a cs c0)
    rw [findConn_updateFirst w.fConn wsId (creditUpdate a cs) (fun c => rfl), hfind]
    rfl
  have hpanel1 : W1.fPanelName = w.fPanelName := rfl
  by_cases hp : w.fPanelName = []
  · rw [if_neg (by simp [hpanel1, hp])]
    refine ⟨rfl, rfl, ?_⟩
    have hfind2 : findConn
        (updateFirst W1.fConn wsId (fun c => { c with fReady := 10 })) wsId
        = some { creditUpdate a cs c0 with fReady := 10 } := by
      rw [findConn_updateFirst _ wsId (fun c => { c with fReady := 10 }) (fun c => rfl),
        hfind1]
      rfl
    obtain ⟨c2, hc2, hsig⟩ := findConn_sig_of_map _ _ wsId _
      (checkDataToSend_sig (setReady W1 wsId 10)) hfind2
    refine ⟨c2, hc2, ?_, ?_⟩
    · rw [connSig_fProcId _ _ hsig]
      rfl
    · rw [connSig_fReady _ _ hsig, if_pos hp]
  · rw [if_pos (by simp [hpanel1, hp])]
    refine ⟨rfl, rfl, ?_⟩
    obtain ⟨cb, hcb, hsigb⟩ := findConn_sig_of_map _ _ wsId _
      (submitData_sig W1 c0.fConnId true (showPanelChars ++ W1.fPanelName) 1) hfind1
    have hfind2 : findConn
        (updateFirst (submitData W1 c0.fConnId true
          (showPanelChars ++ W1.fPanelName) 1).1.fConn wsId
          (fun c => { c with fReady := 5 })) wsId
        = some { cb with fReady := 5 } := by
      rw [findConn_updateFirst _ wsId (fun c => { c with fReady := 5 }) (fun c => rfl),
        hcb]
      rfl
    obtain ⟨c2, hc2, hsig⟩ := findConn_sig_of_map _ _ wsId _
      (checkDataToSend_sig (setReady (submitData W1 c0.fConnId true
        (showPanelChars ++ W1.fPanelName) 1).1 wsId 5)) hfind2
    refine ⟨c2, hc2, ?_, ?_⟩
    · rw [connSig_fProcId _ _ hsig]
      show cb.fProcId = c0.fProcId
      rw [connSig_fProcId _ _ hsigb]
      rfl
    · rw [connSig_fReady _ _ hsig, if_neg hp]

/-- C10 witness: `READY=zzz` with `zzz` not in the (empty) key table and
native-only off — the connection advances to Ready(10), the key table and the
process handle are untouched. -/
theorem c10_unknown_key_witness :
    decodeFrame (String.toList "1:0:0:READY=zzz") 15
      = .ok (1, 0, 0, readyChars ++ String.toList "zzz") ∧
    (processWS exampleW1 (.data 7 (String.toList "1:0:0:READY=zzz") 15)).2.1.fKeys
      = exampleW1.fKeys ∧
    ∃ c2, findConn
        (processWS exampleW1 (.data 7 (String.toList "1:0:0:READY=zzz") 15)).2.1.fConn 7
        = some c2 ∧
      c2.fProcId = (newConn 1 7 0).fProcId ∧
      c2.fReady = (if exampleW1.fPanelName = [] then 10 else 5) := by
  refine ⟨by rfl, ?_, ?_⟩
  · exact (c10_unknown_key exampleW1 7 (String.toList "1:0:0:READY=zzz") 15
      (newConn 1 7 0) 1 0 (String.toList "zzz") (by decide) (by decide) (by decide)
      (by decide) (by rfl) (by decide) (by decide)).2.1
  · exact (c10_unknown_key exampleW1 7 (String.toList "1:0:0:READY=zzz") 15
      (newConn 1 7 0) 1 0 (String.toList "zzz") (by decide) (by decide) (by decide)
      (by decide) (by rfl) (by decide) (by decide)).2.2

/-- C1 counterexample: on a window with no panel name, a connection still in
`Pending` (stage 0) that sends a channel-1 data frame has its payload
forwarded verbatim to the default data callback — the code has no readiness
check on the dispatch path, so handshake gating does not hold as claimed. -/
theorem c1_gating_counterexample :
    (findConn exampleW1.fConn 7).map WebConn.fReady = some 0 ∧
    (processWS exampleW1 (.data 7 (String.toList "0:0:1:hello") 11)).2.2.callbacks
      = [(1, String.toList "hello")] := by
  exact ⟨by rfl, by rfl⟩

/-- C1 amended: handshake gating holds only when the window has a configured
panel name.  On such a window, processing any data event for a connection
whose stage is still `Pending(0)` never invokes a channel-specific callback,
and any default-callback invocation carries only the literal `CONN_READY` or
`CONN_CLOSED` notification — never the event's payload. -/
theorem c1_gating_with_panel (w : Window) (wsId : Nat) (buf : List Char)
    (len : Nat) (c0 : WebConn) (hpanel : w.fPanelName ≠ [])
    (hfind : findConn w.fConn wsId = some c0) (hready : c0.fReady = 0) :
    (processWS w (.data wsId buf len)).2.2.chCalls = [] ∧
    ∀ m ∈ (processWS w (.data wsId buf len)).2.2.callbacks,
      m.2 = connReadyChars ∨ m.2 = connClosedChars := by
  unfold processWS
  rw [show WSEvent.id (.data wsId buf len) = wsId from rfl]
  by_cases hws : wsId = 0
  · rw [if_pos hws]
    exact ⟨rfl, fun m hm => by simp [Effects.nil] at hm⟩
  · rw [if_neg hws]
    dsimp only
    rw [hfind]
    dsimp only
    unfold processData
    split
    · exact ⟨rfl, fun m hm => by simp [Effects.nil] at hm⟩
    · split
      · exact ⟨rfl, fun m hm => by simp [errEff] at hm⟩
      · unfold processDecoded
        dsimp only
        split
        · split
          · split
            · exact ⟨rfl, fun m hm => by simp [Effects.nil] at hm⟩
            · split
              · constructor
                · rw [Effects.chCalls_app, (submitData_no_callbacks _ _ _ _ _).2,
                    (checkDataToSend_no_callbacks _).2]
                  rfl
                · intro m hm
                  rw [Effects.callbacks_app, (submitData_no_callbacks _ _ _ _ _).1,
                    (checkDataToSend_no_callbacks _).1] at hm
                  simp at hm
              · constructor
                · rw [Effects.chCalls_app, (checkDataToSend_no_callbacks _).2]
                  rfl
                · intro m hm
                  rw [Effects.callbacks_app, (checkDataToSend_no_callbacks _).1,
                    List.append_nil] at hm
                  simp only [cbEff, List.mem_singleton] at hm
                  rw [hm]
                  exact Or.inl rfl
          · refine ⟨(checkDataToSend_no_callbacks _).2, ?_⟩
            intro m hm
            rw [(checkDataToSend_no_callbacks _).1] at hm
            simp at hm
        · split
          · split
            · constructor
              · rw [Effects.chCalls_app, (checkDataToSend_no_callbacks _).2]
                rfl
              · intro m hm
                rw [Effects.callbacks_app, (checkDataToSend_no_callbacks _).1,
                  List.append_nil] at hm
                simp only [cbEff, List.mem_singleton] at hm
                rw [hm]
                exact Or.inl rfl
            · constructor
              · rw [Effects.chCalls_app, (checkDataToSend_no_callbacks _).2]
                rfl
              · intro m hm
                rw [Effects.callbacks_app, (checkDataToSend_no_callbacks _).1,
                  List.append_nil] at hm
                simp only [cbEff, List.mem_singleton] at hm
                rw [hm]
                exact Or.inr rfl
          · rename_i hneg
            exact absurd ⟨hpanel, by omega⟩ hneg

/-- C1 amended witness: with panel `"fit"` configured, a Pending connection's
channel-1 payload is not forwarded — the only notifications possible are the
literals. -/
theorem c1_gating_with_panel_witness :
    (processWS (processWS (initWindow 0 10 (String.toList "fit")
        [(String.toList "abc", String.toList "pid9")] false 0) (.ready 7)).2.1
      (.data 7 (String.toList "0:0:1:hello") 11)).2.2.chCalls = [] ∧
    ∀ m ∈ (processWS (processWS (initWindow 0 10 (String.toList "fit")
        [(String.toList "abc", String.toList "pid9")] false 0) (.ready 7)).2.1
      (.data 7 (String.toList "0:0:1:hello") 11)).2.2.callbacks,
      m.2 = connReadyChars ∨ m.2 = connClosedChars :=
  c1_gating_with_panel _ 7 (String.toList "0:0:1:hello") 11 (newConn 1 7 0)
    (by decide) (by decide) (by decide)

/-- C2 counterexample: with panel name `"fit"` and a valid key, the directive
sent after `READY=` is `"1:10:1:SHOWPANEL:fit"` — decoding the transmitted
frame shows channel id 1, not the system channel 0 claimed (the code routes
the directive through `Send`, which always uses channel 1); the stage does
become PanelWait(5). -/
theorem c2_showpanel_counterexample :
    (processWS (processWS (initWindow 0 10 (String.toList "fit")
        [(String.toList "abc", String.toList "pid9")] false 0) (.ready 7)).2.1
      (.data 7 (String.toList "10:0:0:READY=abc") 16)).2.2.sent.head?
      = some (.text 7 (String.toList "1:10:1:SHOWPANEL:fit")) ∧
    decodeFrame (String.toList "1:10:1:SHOWPANEL:fit") 20
      = .ok (1, 10, 1, String.toList "SHOWPANEL:fit") ∧
    (findConn (processWS (processWS (initWindow 0 10 (String.toList "fit")
        [(String.toList "abc", String.toList "pid9")] false 0) (.ready 7)).2.1
      (.data 7 (String.toList "10:0:0:READY=abc") 16)).2.1.fConn 7).map
        WebConn.fReady = some 5 := by
  exact ⟨by rfl, by rfl, by rfl⟩

/-- C2 amended: for every window with a configured panel name, when a Pending
connection delivers a valid `READY=<key>` on channel 0, the core submits
`SHOWPANEL:<name>` via `Send`, i.e. on channel 1 (not the system channel 0),
and — when the connection's credits after the acknowledgment are positive and
its queue is empty — that frame is the next outbound message; the connection's
readiness stage becomes PanelWait(5). -/
theorem c2_showpanel_channel (w : Window) (wsId : Nat) (buf : List Char)
    (len : Nat) (pre post : List WebConn) (c0 : WebConn) (a cs : Nat)
    (k pid : List Char)
    (hh : w.fHasWSHandler = true) (hpanel : w.fPanelName ≠ [])
    (hsplit : w.fConn = pre ++ c0 :: post)
    (hpre : ∀ x ∈ pre, x.fWSId ≠ wsId ∧ x.fConnId ≠ c0.fConnId)
    (hws0 : wsId ≠ 0) (hcws : c0.fWSId = wsId) (hconnid : c0.fConnId ≠ 0)
    (hready : c0.fReady = 0) (hq : c0.fQueue = []) (hlen : 0 < len)
    (hdec : decodeFrame buf len = .ok (a, cs, 0, readyChars ++ k))
    (hkey : lookupKey w.fKeys k = some pid)
    (hcred : 0 < c0.fSendCredits + (a : Int)) :
    (processWS w (.data wsId buf len)).1 = true ∧
    (processWS w (.data wsId buf len)).2.2.sent.head?
      = some (.text c0.fWSId (wireFrame (c0.fRecvCount + 1)
          (c0.fSendCredits + (a : Int)) 1 (showPanelChars ++ w.fPanelName))) ∧
    ∃ c2, findConn (processWS w (.data wsId buf len)).2.1.fConn wsId = some c2 ∧
      c2.fReady = 5 := by
  have hfind : findConn w.fConn wsId = some c0 := by
    rw [hsplit]
    exact findConn_append pre c0 post wsId (fun x hx => (hpre x hx).1) hcws
  have hred : processWS w (.data wsId buf len)
      = processDecoded w wsId c0 a cs 0 (readyChars ++ k) := by
    unfold processWS
    rw [show WSEvent.id (.data wsId buf len) = wsId from rfl, if_neg hws0]
    dsimp only
    rw [hfind]
    dsimp only
    unfold processData
    rw [if_neg (by omega), hdec]
  rw [hred]
  unfold processDecoded
  dsimp only
  rw [if_pos rfl, if_pos ⟨readyChars_take k, hready⟩, readyChars_drop]
  set W1 : Window := { w with fConn := updateFirst w.fConn wsId (creditUpdate a cs) }
    with hW1
  have hkey1 : lookupKey W1.fKeys k = some pid := hkey
  rw [if_neg (by simp [hkey1, hkey])]
  set W2 : Window := consumeKey W1 wsId k with hW2
  have hW2eq : W2 = { W1 with
      fConn := updateFirst W1.fConn wsId (fun c => { c with fProcId := pid }),
      fKeys := eraseKey W1.fKeys k } := by
    rw [hW2]
    exact consumeKey_some W1 wsId k pid hkey1
  have hp2 : W2.fPanelName = w.fPanelName := by rw [hW2eq]
  rw [if_pos (show W2.fPanelName ≠ [] from by rw [hp2]; exact hpanel), hp2]
  have hW1conn : W1.fConn = pre ++ creditUpdate a cs c0 :: post := by
    show updateFirst w.fConn wsId (creditUpdate a cs) = _
    rw [hsplit]
    exact updateFirst_append pre c0 post wsId _ (fun x hx => (hpre x hx).1) hcws
  have hW2conn : W2.fConn
      = pre ++ ({ creditUpdate a cs c0 with fProcId := pid }) :: post := by
    rw [hW2eq]
    show updateFirst W1.fConn wsId (fun c => { c with fProcId := pid }) = _
    rw [hW1conn]
    exact updateFirst_append pre _ post wsId _ (fun x hx => (hpre x hx).1) hcws
  have hW2hh : W2.fHasWSHandler = true := by rw [hW2eq]; exact hh
  refine ⟨rfl, ?_, ?_⟩
  · rw [Effects.sent_app]
    apply head?_append_of_head?
    show (submitData W2 c0.fConnId true (showPanelChars ++ w.fPanelName) 1).2.sent.head?
      = _
    unfold submitData
    dsimp only
    rw [if_pos hconnid, Effects.sent_app]
    apply head?_append_of_head?
    rw [hW2conn, hW2hh]
    exact submitLoop_sent_head c0.fConnId 1 W2.fMaxQueueLength W2.ghostNextId pre
      ({ creditUpdate a cs c0 with fProcId := pid }) post 1
      (showPanelChars ++ w.fPanelName)
      (fun x hx => Ne.symm ((hpre x hx).2)) hconnid rfl hq hcred
      (show c0.fWSId ≠ 0 from by rw [hcws]; exact hws0)
  · have hfc1 : findConn W2.fConn wsId
        = some ({ creditUpdate a cs c0 with fProcId := pid }) := by
      rw [hW2conn]
      exact findConn_append pre _ post wsId (fun x hx => (hpre x hx).1) hcws
    obtain ⟨cb, hcb, hsigb⟩ := findConn_sig_of_map _ _ wsId _
      (submitData_sig W2 c0.fConnId true (showPanelChars ++ w.fPanelName) 1) hfc1
    have hfind2 : findConn
        (updateFirst (submitData W2 c0.fConnId true
          (showPanelChars ++ w.fPanelName) 1).1.fConn wsId
          (fun c => { c with fReady := 5 })) wsId
        = some { cb with fReady := 5 } := by
      rw [findConn_updateFirst _ wsId (fun c => { c with fReady := 5 }) (fun c => rfl),
        hcb]
      rfl
    obtain ⟨c2, hc2, hsig⟩ := findConn_sig_of_map _ _ wsId _
      (checkDataToSend_sig (setReady (submitData W2 c0.fConnId true
        (showPanelChars ++ w.fPanelName) 1).1 wsId 5)) hfind2
    exact ⟨c2, hc2, by rw [connSig_fReady _ _ hsig]⟩

/-- C2 amended witness: the concrete panel scenario, applied through the
amended theorem. -/
theorem c2_showpanel_channel_witness :
    (processWS (processWS (initWindow 0 10 (String.toList "fit")
        [(String.toList "abc", String.toList "pid9")] false 0) (.ready 7)).2.1
      (.data 7 (String.toList "10:0:0:READY=abc") 16)).1 = true ∧
    (processWS (processWS (initWindow 0 10 (String.toList "fit")
        [(String.toList "abc", String.toList "pid9")] false 0) (.ready 7)).2.1
      (.data 7 (String.toList "10:0:0:READY=abc") 16)).2.2.sent.head?
      = some (.text (newConn 1 7 0).fWSId
          (wireFrame ((newConn 1 7 0).fRecvCount + 1)
            ((newConn 1 7 0).fSendCredits + ((10 : Nat) : Int)) 1
            (showPanelChars ++ (processWS (initWindow 0 10 (String.toList "fit")
              [(String.toList "abc", String.toList "pid9")] false 0)
              (.ready 7)).2.1.fPanelName))) ∧
    ∃ c2, findConn (processWS (processWS (initWindow 0 10 (String.toList "fit")
        [(String.toList "abc", String.toList "pid9")] false 0) (.ready 7)).2.1
      (.data 7 (String.toList "10:0:0:READY=abc") 16)).2.1.fConn 7 = some c2 ∧
      c2.fReady = 5 :=
  c2_showpanel_channel _ 7 (String.toList "10:0:0:READY=abc") 16 [] []
    (newConn 1 7 0) 10 0 (String.toList "abc") (String.toList "pid9")
    (by decide) (by decide) (by rfl) (by intro x hx; simp at hx) (by decide)
    (by decide) (by decide) (by decide) (by decide) (by decide) (by rfl)
    (by decide) (by decide)

theorem matchCount_zero (l : List WebConn) : matchCount 0 l = l.length := by
  induction l with
  | nil => rfl
  | cons a rest ih =>
    rw [matchCount_cons_match 0 a rest (Or.inl rfl), ih, List.length_cons]
    omega

/-- C6 counterexample: in a two-connection broadcast where both connections
enqueue, the first enqueue leaves the caller's payload variable untouched
(it copies — under the claim it would have moved the payload out, leaving the
second connection an empty moved-from string), and the move happens only at
the last enqueue, when the decremented counter reaches zero.  Both queued
items carry the full payload precisely because the move is last, not first. -/
theorem c6_move_copy_counterexample :
    ((submitOne true 0 true 1 10 0 (newConn 1 7 0) 2 (String.toList "hello")).2.2.1
      = String.toList "hello") ∧
    ((submitOne true 0 true 1 10 0 (newConn 1 7 0) 2 (String.toList "hello")).1.fQueue.map
      QueueItem.fData = [String.toList "hello"]) ∧
    ((submitOne true 0 true 1 10 0 (newConn 2 8 0) 1 (String.toList "hello")).2.2.1
      = []) ∧
    ((submitOne true 0 true 1 10 0 (newConn 2 8 0) 1 (String.toList "hello")).1.fQueue.map
      QueueItem.fData = [String.toList "hello"]) ∧
    ((submitData (processWS (processWS exampleInit (.ready 7)).2.1 (.ready 8)).2.1
        0 true (String.toList "hello") 1).1.fConn.map
      (fun c => c.fQueue.map QueueItem.fData)
      = [[String.toList "hello"], [String.toList "hello"]]) := by
  exact ⟨by rfl, by rfl, by rfl, by rfl, by rfl⟩

/-- C6 amended: during the enqueue phase of a `SubmitData` call whose
copy-move counter starts at least at the number of matching connections
(broadcasts start it at the connection count; single-target calls at 1),
every connection's queue is either untouched or extended with exactly one
item carrying the full original payload: enqueues before the last matching
connection copy, and only the final enqueue — when the counter reaches
zero — moves the payload. -/
theorem c6_enqueue_full_payload (hh : Bool) (connid : Nat) (txt : Bool)
    (chid : Int) (mq gid : Nat) (l : List WebConn) (cnt : Int) (data : List Char)
    (hcnt : (matchCount connid l : Int) ≤ cnt) :
    List.Forall₂ (fun c c2 => c2.fQueue = c.fQueue ∨
      c2.fQueue = c.fQueue ++ [⟨chid, txt, data, gid⟩])
      l (submitLoop hh connid txt chid mq gid l cnt data).1 ∧
    matchCount 0 l = l.length :=
  ⟨submitLoop_queues hh connid txt chid mq gid data l cnt data (Or.inl rfl) hcnt,
    matchCount_zero l⟩

/-- C6 amended witness: the two-connection broadcast enqueue phase, each
queue extended with the full payload. -/
theorem c6_enqueue_full_payload_witness :
    List.Forall₂ (fun c c2 => c2.fQueue = c.fQueue ∨
      c2.fQueue = c.fQueue ++ [⟨1, true, String.toList "hello", 0⟩])
      [newConn 1 7 0, newConn 2 8 0]
      (submitLoop true 0 true 1 10 0 [newConn 1 7 0, newConn 2 8 0] 2
        (String.toList "hello")).1 ∧
    matchCount 0 [newConn 1 7 0, newConn 2 8 0] = 2 :=
  c6_enqueue_full_payload true 0 true 1 10 0 [newConn 1 7 0, newConn 2 8 0] 2
    (String.toList "hello") (by decide)

end WebWindow
